import Mathlib

/-!
Verification development for the `hcc_bclc_extractor` package: a shallow
embedding of the extraction-output schema (`schema.py`), the numeric/p-value/CI
string parsers and the relational persistence mapper (`db.py`), together with
theorems about the derived `outcomes_survival` rows, article identity
resolution, transactional behaviour and closed-world validation.
-/

namespace Hcc

/-! ## Python string and float primitives

`float(...)` in Python returns an IEEE double; the strings handled by this
repository are short decimal literals, so a parsed float is represented
exactly as a signed decimal mantissa and a power-of-ten exponent (plus the
special values `inf`, `-inf`, `nan`).  Two parses are equal exactly when the
parser produced them from the same written form, which is all the theorems
below ever compare.
-/

inductive PyFloat where
  | finite (mantissa : Int) (exp10 : Int)
  | inf
  | negInf
  | nan
deriving DecidableEq, Repr

/-- Decimal value of a finite `PyFloat`, for relating parses to the decimal
numbers written in the documentation. -/
def pyToRat : PyFloat → Option ℚ
  | .finite m e => some ((m : ℚ) * (10 : ℚ) ^ e)
  | _ => none

def isPyWs (c : Char) : Bool :=
  c == ' ' || c == '\t' || c == '\n' || c == '\r' || c == '\x0b' || c == '\x0c'

/-- `str.strip()` on a character list. -/
def pyStripList (cs : List Char) : List Char :=
  ((cs.dropWhile isPyWs).reverse.dropWhile isPyWs).reverse

/-- `str.strip()`. -/
def pyStrip (s : String) : String :=
  ⟨pyStripList s.data⟩

/-- `str.split()` (no separator): split on runs of whitespace, dropping empty
tokens. -/
def splitWsAux : List Char → List Char → List (List Char)
  | [], [] => []
  | [], cur => [cur.reverse]
  | c :: rest, cur =>
    if isPyWs c then
      match cur with
      | [] => splitWsAux rest []
      | _ => cur.reverse :: splitWsAux rest []
    else splitWsAux rest (c :: cur)

def pySplitWs (s : String) : List String :=
  (splitWsAux s.data []).map List.asString

def digitsVal (ds : List Char) : Nat :=
  ds.foldl (fun a c => a * 10 + (c.toNat - 48)) 0

/-- Continue a digit run in which an underscore must sit between two digits
(Python numeric-literal rule).  Returns the digits consumed (underscores
removed) and the unconsumed rest; `none` on a misplaced underscore. -/
def duCont : List Char → Option (List Char × List Char)
  | [] => some ([], [])
  | '_' :: rest =>
    match rest with
    | c :: rest2 =>
      if c.isDigit then (duCont rest2).map (fun p => (c :: p.1, p.2)) else none
    | [] => none
  | c :: rest =>
    if c.isDigit then (duCont rest).map (fun p => (c :: p.1, p.2)) else some ([], c :: rest)

/-- A digit run that must start with a digit. -/
def duStart : List Char → Option (List Char × List Char)
  | c :: rest => if c.isDigit then (duCont rest).map (fun p => (c :: p.1, p.2)) else none
  | [] => none

def lcEq (cs : List Char) (t : List Char) : Bool :=
  cs.map Char.toLower == t

/-- Build the finite float from sign, integer digits, fractional digits and a
signed decimal exponent. -/
def mkFinite (neg : Bool) (ip fp : List Char) (eneg : Bool) (ev : Nat) : PyFloat :=
  let m0 : Int := Int.ofNat (digitsVal (ip ++ fp))
  let m : Int := if neg then -m0 else m0
  let e : Int := (if eneg then -(Int.ofNat ev) else Int.ofNat ev) - Int.ofNat fp.length
  .finite m e

def pyFloatExponent (neg : Bool) (ip fp r2 : List Char) : Option PyFloat :=
  if ip.isEmpty && fp.isEmpty then none
  else
    match r2 with
    | [] => some (mkFinite neg ip fp false 0)
    | e :: r3 =>
      if e == 'e' || e == 'E' then
        let sr : Bool × List Char :=
          match r3 with
          | '+' :: t => (false, t)
          | '-' :: t => (true, t)
          | _ => (false, r3)
        match duStart sr.2 with
        | some (ed, []) => some (mkFinite neg ip fp sr.1 (digitsVal ed))
        | _ => none
      else none

def pyFloatFrac (neg : Bool) (ip r1 : List Char) : Option PyFloat :=
  match r1 with
  | '.' :: r1b =>
    match r1b with
    | c :: _ =>
      if c.isDigit then
        match duStart r1b with
        | some (fp, r2) => pyFloatExponent neg ip fp r2
        | none => none
      else pyFloatExponent neg ip [] r1b
    | [] => pyFloatExponent neg ip [] []
  | _ => pyFloatExponent neg ip [] r1

def pyFloatAfterSign (neg : Bool) (cs : List Char) : Option PyFloat :=
  if lcEq cs ['i', 'n', 'f'] || lcEq cs ['i', 'n', 'f', 'i', 'n', 'i', 't', 'y'] then
    some (if neg then .negInf else .inf)
  else if lcEq cs ['n', 'a', 'n'] then some .nan
  else
    match cs with
    | c :: _ =>
      if c.isDigit then
        match duStart cs with
        | some (ip, r1) => pyFloatFrac neg ip r1
        | none => none
      else pyFloatFrac neg [] cs
    | [] => none

/-- Python `float(s)` on a character list: strips whitespace, then parses an
optional sign followed by a decimal literal (underscores between digits
allowed, an optional fraction and exponent) or `inf`/`infinity`/`nan`
case-insensitively.  `none` models `ValueError`. -/
def pyFloatList? (cs0 : List Char) : Option PyFloat :=
  match pyStripList cs0 with
  | '+' :: rest => pyFloatAfterSign false rest
  | '-' :: rest => pyFloatAfterSign true rest
  | cs => pyFloatAfterSign false cs

/-- Python `float(s)` on a string. -/
def pyFloat? (s : String) : Option PyFloat :=
  pyFloatList? s.data

/-- `str.lower()` (ASCII). -/
def pyLower (cs : List Char) : List Char :=
  cs.map Char.toLower

/-- `str.replace(c, "")` for a single-character pattern. -/
def removeChar (c : Char) (cs : List Char) : List Char :=
  cs.filter (fun x => x != c)

/-- `str.split(sep)` for a single-character separator (keeps empty parts). -/
def charSplitAux (sep : Char) : List Char → List Char → List (List Char)
  | [], cur => [cur.reverse]
  | c :: rest, cur =>
    if c == sep then cur.reverse :: charSplitAux sep rest []
    else charSplitAux sep rest (c :: cur)

def charSplitOn (sep : Char) (cs : List Char) : List (List Char) :=
  charSplitAux sep cs []

/-- Python truthiness of an `Optional[str]`. -/
def pyTruthyStr : Option String → Bool
  | none => false
  | some s => s != ""

/-- Python `or` with a string default: `x or d`. -/
def pyOrStr (o : Option String) (d : String) : String :=
  match o with
  | some s => if s == "" then d else s
  | none => d

/-! ## JSON values

The loosely-typed documents handed to the validator: what `json.loads`
produces.  JSON objects carry unique keys; the validators check that
invariant explicitly. -/

inductive JValue where
  | null
  | bool (b : Bool)
  | int (n : Int)
  | float (q : ℚ)
  | str (s : String)
  | arr (xs : List JValue)
  | obj (fs : List (String × JValue))
deriving BEq

/-! ## The extraction-output data model (schema.py) -/

structure StudyMetadata where
  pmid : Option String := none
  title : Option String := none
  year : Option Int := none
  journal : Option String := none
  doi : Option String := none
  study_design : Option String := none
  phase : Option String := none
  sample_size_total : Option Int := none
  arms : Option (List String) := none
  comparator : Option String := none
deriving BEq

structure Treatment where
  name : Option String := none
  category : Option String := none
  line_of_therapy : Option String := none
  duration : Option String := none
  combination : Option Bool := none
  components : Option (List String) := none
deriving BEq

structure TumorBurden where
  nodules : Option String := none
  largest_nodule_cm : Option ℚ := none
  vascular_invasion : Option Bool := none
  extrahepatic_spread : Option Bool := none
  afp_ng_ml : Option ℚ := none
  afp_gt_400 : Option Bool := none
deriving BEq

structure ChildPugh where
  bilirubin_mg_dl : Option ℚ := none
  albumin_g_dl : Option ℚ := none
  inr : Option ℚ := none
  ascites : Option String := none
  encephalopathy : Option String := none
  class_letter : Option String := none
  score : Option Int := none
deriving BEq

structure PerformanceStatus where
  ecog : Option Int := none
deriving BEq

structure BCLCBaseline where
  tumor_burden : TumorBurden := {}
  child_pugh : ChildPugh := {}
  performance_status : PerformanceStatus := {}
deriving BEq

structure BCLC2025CUSE where
  mentioned : Bool := false
  cuse_criteria : Option (List String) := none
  personalized_factors : Option (List String) := none
  decision_logic : Option String := none
deriving BEq

structure OutcomeMetric where
  value : Option String := none
  ci : Option String := none
  p_value : Option String := none
  hr : Option ℚ := none
  hr_ci : Option String := none
  follow_up : Option String := none
  evidence_section : Option String := none
  evidence_page : Option Int := none
  table_figure : Option String := none
  verbatim_excerpt : Option String := none
deriving BEq

structure EvidenceSpan where
  field_path : String
  value_json : String
  evidence_section : Option String := none
  evidence_page : Option Int := none
  table_figure : Option String := none
  verbatim_excerpt : Option String := none
  locator : Option String := none
deriving BEq

structure Results where
  response_criteria : Option String := none
  os : OutcomeMetric := {}
  pfs : OutcomeMetric := {}
  orr : OutcomeMetric := {}
  dcr : OutcomeMetric := {}
  ttp : OutcomeMetric := {}
  other : Option (List (String × JValue)) := none
deriving BEq

structure AdverseEvent where
  name : Option String := none
  grade : Option String := none
  frequency : Option String := none
  notes : Option String := none
deriving BEq

structure Safety where
  any_adverse_events_reported : Option Bool := none
  grade_3_4_events : Option (List AdverseEvent) := none
  saes : Option (List AdverseEvent) := none
  discontinuation_due_to_toxicity : Option String := none
  treatment_related_deaths : Option String := none
  narrative : Option String := none
deriving BEq

structure ExperimentArm where
  arm_name : Option String := none
  treatment : Treatment := {}
  bclc_baseline : BCLCBaseline := {}
  bclc_stage_reported : Option String := none
  bclc_2025_cuse : BCLC2025CUSE := {}
  results : Results := {}
  safety : Safety := {}
deriving BEq

structure ExtractionOutput where
  study_metadata : StudyMetadata
  experiments : List ExperimentArm
  evidence_level : String
  evidence_spans : List EvidenceSpan
deriving BEq

/-! ## The value parsers of db.py

Each parser wraps the raising operations (`float`, indexing, tuple
unpacking) in `try/except (ValueError, IndexError)`; in the pure embedding
the caught branch is folded into the `none`/`(none, none)` result. -/

/-- `_parse_numeric_value`: `float(str(value).strip().split()[0])`, with
falsy input and caught `ValueError`/`IndexError` giving `None`. -/
def parse_numeric_value (value : Option String) : Option PyFloat :=
  match value with
  | none => none
  | some s =>
    if s == "" then none
    else
      match (pySplitWs (pyStrip s)).head? with
      | none => none
      | some tok => pyFloat? tok

/-- The remainder `str(p_str).lower().replace("p", "").replace("<", "").replace("=", "").strip()`. -/
def p_value_remainder (s : String) : List Char :=
  pyStripList (removeChar '=' (removeChar '<' (removeChar 'p' (pyLower s.data))))

/-- `_parse_p_value`: lower-case, delete every `p`, `<`, `=`, strip, then
`float`; falsy input or a failed cast gives `None`. -/
def parse_p_value (p : Option String) : Option PyFloat :=
  match p with
  | none => none
  | some s =>
    if s == "" then none
    else pyFloatList? (p_value_remainder s)

/-- Python exceptions relevant to the parsing helpers. -/
inductive PyExc where
  | valueError
  | indexError
  | typeError
  | stopIteration
deriving DecidableEq

/-- `float(s)` with its exception made explicit. -/
def float_exc (cs : List Char) : Except PyExc PyFloat :=
  match pyFloatList? cs with
  | some f => .ok f
  | none => .error .valueError

/-- Unpacking `low, high = map(float, parts)`: exactly two parts are
required (a `ValueError` otherwise), each cast by `float`. -/
def ci_parts : List (List Char) → Except PyExc (PyFloat × PyFloat)
  | [a, b] =>
    (match float_exc a with
     | .error e => .error e
     | .ok lo =>
       match float_exc b with
       | .error e => .error e
       | .ok hi => .ok (lo, hi))
  | _ => .error .valueError

/-- The body of `_parse_ci_value`'s `try` block:
`low, high = map(float, str(ci_str).split('-'))`. -/
def ci_inner (s : String) : Except PyExc (PyFloat × PyFloat) :=
  ci_parts (charSplitOn '-' s.data)

/-- `_parse_ci_value`: split on `-`, require exactly two parts, `float` each;
falsy input or a caught error gives `(None, None)`. -/
def parse_ci_value (ci : Option String) : Option PyFloat × Option PyFloat :=
  match ci with
  | none => (none, none)
  | some s =>
    if s == "" then (none, none)
    else
      match ci_inner s with
      | .ok (lo, hi) => (some lo, some hi)
      | .error _ => (none, none)

/-- `_parse_ci_value` with exception propagation made explicit: the
`except (ValueError, IndexError)` clause maps those two exceptions to
`(None, None)`; any other exception would propagate to the caller. -/
def parse_ci_value_exc (ci : Option String) : Except PyExc (Option PyFloat × Option PyFloat) :=
  match ci with
  | none => .ok (none, none)
  | some s =>
    if s == "" then .ok (none, none)
    else
      match ci_inner s with
      | .ok (lo, hi) => .ok (some lo, some hi)
      | .error .valueError => .ok (none, none)
      | .error .indexError => .ok (none, none)
      | .error e => .error e

/-! ## Derivation of `outcomes_survival` rows (`_insert_outcomes_survival`) -/

structure OutcomeRow where
  extraction_id : Nat
  endpoint : String
  group_a : String
  group_b : Option String
  median_a_months : PyFloat
  median_b_months : Option PyFloat
  p_value : Option PyFloat
  hr : Option ℚ
  hr_ci_low : Option PyFloat
  hr_ci_high : Option PyFloat
  evidence_section : Option String
  evidence_page : Option Int
  table_figure : Option String
  verbatim_excerpt : Option String
deriving BEq

/-- `results_map = {"OS": exp.results.os, "PFS": exp.results.pfs, "TTP": exp.results.ttp}`. -/
def results_map (r : Results) : List (String × OutcomeMetric) :=
  [("OS", r.os), ("PFS", r.pfs), ("TTP", r.ttp)]

/-- The `if/elif` chain selecting the comparator arm's metric for an endpoint. -/
def comparator_metric (ca : ExperimentArm) (endpoint : String) : Option OutcomeMetric :=
  if endpoint == "OS" then some ca.results.os
  else if endpoint == "PFS" then some ca.results.pfs
  else if endpoint == "TTP" then some ca.results.ttp
  else none

/-- One iteration of the endpoint loop: the row inserted for
(`arm`, `endpoint`), or nothing when the arm's own median is unparsable. -/
def outcome_row (eid : Nat) (cname : Option String) (carm : Option ExperimentArm)
    (arm : ExperimentArm) (endpoint : String) (data_a : OutcomeMetric) : Option OutcomeRow :=
  let data_b : Option OutcomeMetric :=
    match carm with
    | none => none
    | some ca => comparator_metric ca endpoint
  match parse_numeric_value data_a.value with
  | none => none
  | some ma =>
    some
      { extraction_id := eid
        endpoint := endpoint
        group_a := pyOrStr arm.arm_name "N/A"
        group_b := cname
        median_a_months := ma
        median_b_months := data_b.bind (fun db => parse_numeric_value db.value)
        p_value := parse_p_value data_a.p_value
        hr := data_a.hr
        hr_ci_low := (parse_ci_value data_a.hr_ci).1
        hr_ci_high := (parse_ci_value data_a.hr_ci).2
        evidence_section := data_a.evidence_section
        evidence_page := data_a.evidence_page
        table_figure := data_a.table_figure
        verbatim_excerpt := data_a.verbatim_excerpt }

/-- The rows contributed by one treatment arm: nothing when it equals the
comparator name (the self-pair skip), otherwise one optional row per
endpoint in `{OS, PFS, TTP}`. -/
def arm_rows (eid : Nat) (cname : Option String) (carm : Option ExperimentArm)
    (arm : ExperimentArm) : List OutcomeRow :=
  if arm.arm_name == cname then []
  else (results_map arm.results).filterMap (fun p => outcome_row eid cname carm arm p.1 p.2)

/-- Comparator-arm resolution: first arm whose `arm_name` equals the (truthy)
comparator string. -/
def find_comparator (out : ExtractionOutput) : Option ExperimentArm :=
  match out.study_metadata.comparator with
  | none => none
  | some c => if c == "" then none else out.experiments.find? (fun a => a.arm_name == some c)

/-- All `outcomes_survival` rows inserted by `_insert_outcomes_survival`. -/
def outcomes_survival_rows (eid : Nat) (out : ExtractionOutput) : List OutcomeRow :=
  out.experiments.flatMap (arm_rows eid out.study_metadata.comparator (find_comparator out))

/-! ## The relational store and `insert_extraction` -/

structure ArticleRow where
  id : Nat
  pmid : Option String
  doi : Option String
  title : Option String
  journal : Option String
  year : Option Int
  article_type : Option String
  pdf_path : Option String
deriving BEq

structure ExtractionRow where
  id : Nat
  article_id : Nat
  schema_version : String
  extractor_bundle_version : String
  payload : ExtractionOutput
deriving BEq

structure EvidenceSpanRow where
  extraction_id : Nat
  field_path : String
  value_json : String
  evidence_section : Option String
  evidence_page : Option Int
  table_figure : Option String
  verbatim_excerpt : Option String
  locator : Option String
deriving BEq

/-- The relational store.  `nextId` models the generated identities returned
by the `RETURNING id` clauses. -/
structure Store where
  nextId : Nat
  articles : List ArticleRow
  extractions : List ExtractionRow
  evidence_spans : List EvidenceSpanRow
  outcomes : List OutcomeRow
deriving BEq

def emptyStore : Store :=
  { nextId := 0, articles := [], extractions := [], evidence_spans := [], outcomes := [] }

/-- Errors surfaced by a run of `insert_extraction`:
`scalar_one_or_none` raising `MultipleResultsFound`, or a row-level insert
rejected by the store (e.g. a constraint violation). -/
inductive DbExc where
  | multipleResultsFound
  | rowInsertFailed
deriving DecidableEq

/-- Which row-level inserts the store rejects; models constraint violations
and similar database-side failures injected per row. -/
structure FailureOracle where
  articleFails : ArticleRow → Bool
  extractionFails : ExtractionRow → Bool
  spanFails : EvidenceSpan → Bool
  outcomeFails : OutcomeRow → Bool

/-- The store that accepts every insert. -/
def noFail : FailureOracle :=
  { articleFails := fun _ => false
    extractionFails := fun _ => false
    spanFails := fun _ => false
    outcomeFails := fun _ => false }

/-- The `WHERE pmid = :pmid OR doi = :doi` predicate, with a clause present
only for a truthy identifier (`if meta.pmid: ...`). -/
def article_match (meta : StudyMetadata) (a : ArticleRow) : Bool :=
  (pyTruthyStr meta.pmid && a.pmid == meta.pmid) ||
    (pyTruthyStr meta.doi && a.doi == meta.doi)

/-- Article identity resolution: skip the query when neither identifier is
truthy; otherwise `scalar_one_or_none` over the matching rows. -/
def find_article (db : Store) (meta : StudyMetadata) : Except DbExc (Option Nat) :=
  if pyTruthyStr meta.pmid || pyTruthyStr meta.doi then
    match db.articles.filter (article_match meta) with
    | [] => .ok none
    | [a] => .ok (some a.id)
    | _ => .error .multipleResultsFound
  else .ok none

/-- The `UPDATE articles SET ...` statement applied to the matched row. -/
def updated_article (meta : StudyMetadata) (a : ArticleRow) : ArticleRow :=
  { a with
    pmid := meta.pmid
    doi := meta.doi
    title := meta.title
    journal := meta.journal
    year := meta.year }

/-- The `INSERT INTO articles ...` row. -/
def new_article (id : Nat) (meta : StudyMetadata) (article_type pdf_path : String) : ArticleRow :=
  { id := id
    pmid := meta.pmid
    doi := meta.doi
    title := meta.title
    journal := meta.journal
    year := meta.year
    article_type := some article_type
    pdf_path := some pdf_path }

def span_row (eid : Nat) (sp : EvidenceSpan) : EvidenceSpanRow :=
  { extraction_id := eid
    field_path := sp.field_path
    value_json := sp.value_json
    evidence_section := sp.evidence_section
    evidence_page := sp.evidence_page
    table_figure := sp.table_figure
    verbatim_excerpt := sp.verbatim_excerpt
    locator := sp.locator }

/-- The `_insert_evidence_spans` loop: insert rows one by one, aborting on the
first rejected insert. -/
def insert_spans (fail : FailureOracle) (eid : Nat) :
    List EvidenceSpan → Except DbExc (List EvidenceSpanRow)
  | [] => .ok []
  | sp :: rest =>
    if fail.spanFails sp then .error .rowInsertFailed
    else
      match insert_spans fail eid rest with
      | .ok rows => .ok (span_row eid sp :: rows)
      | .error e => .error e

/-- The insert loop of `_insert_outcomes_survival`. -/
def insert_outcomes (fail : FailureOracle) :
    List OutcomeRow → Except DbExc (List OutcomeRow)
  | [] => .ok []
  | r :: rest =>
    if fail.outcomeFails r then .error .rowInsertFailed
    else
      match insert_outcomes fail rest with
      | .ok rows => .ok (r :: rows)
      | .error e => .error e

/-- The identity-resolution and upsert step: update the matched article row
in place, or insert a new one and return its generated id. -/
def article_phase (fail : FailureOracle) (db : Store) (meta : StudyMetadata)
    (article_type pdf_path : String) : Except DbExc (Store × Nat) :=
  match find_article db meta with
  | .error e => .error e
  | .ok (some aid) =>
    .ok ({ db with
            articles := db.articles.map
              (fun a => if a.id == aid then updated_article meta a else a) },
         aid)
  | .ok none =>
    let a := new_article db.nextId meta article_type pdf_path
    if fail.articleFails a then .error .rowInsertFailed
    else .ok ({ db with nextId := db.nextId + 1, articles := db.articles ++ [a] }, a.id)

/-- The archival row for one run. -/
def extraction_row (db1 : Store) (aid : Nat) (schema_version bundle_version : String)
    (out : ExtractionOutput) : ExtractionRow :=
  { id := db1.nextId
    article_id := aid
    schema_version := schema_version
    extractor_bundle_version := bundle_version
    payload := out }

/-- `insert_extraction`: article identity resolution and upsert, archival of
the payload, evidence-span flattening and derived outcome rows, inside one
transaction.  An `Except.error` models the exception propagating out of the
session scope. -/
def insert_extraction (fail : FailureOracle) (db : Store) (out : ExtractionOutput)
    (pdf_path article_type schema_version bundle_version : String) :
    Except DbExc (Store × Nat) :=
  match article_phase fail db out.study_metadata article_type pdf_path with
  | .error e => .error e
  | .ok (db1, aid) =>
    let er := extraction_row db1 aid schema_version bundle_version out
    if fail.extractionFails er then .error .rowInsertFailed
    else
      match insert_spans fail er.id out.evidence_spans with
      | .error e => .error e
      | .ok spanRows =>
        match insert_outcomes fail (outcomes_survival_rows er.id out) with
        | .error e => .error e
        | .ok outRows =>
          .ok ({ db1 with
                  nextId := db1.nextId + 1
                  extractions := db1.extractions ++ [er]
                  evidence_spans := db1.evidence_spans ++ spanRows
                  outcomes := db1.outcomes ++ outRows },
               er.id)

/-- The store observable after the `get_db_session` scope closes: the new
state on commit, the untouched original on rollback. -/
def run_insert (fail : FailureOracle) (db : Store) (out : ExtractionOutput)
    (pdf_path article_type schema_version bundle_version : String) : Store :=
  match insert_extraction fail db out pdf_path article_type schema_version bundle_version with
  | .ok (db2, _) => db2
  | .error _ => db

/-! ## Validation (the pydantic layer of schema.py)

Documents are JSON values; each model validates an object with a closed set
of declared keys (`model_config = ConfigDict(extra="forbid")`), where every
leaf field is nullable unless required, enum fields match their literal set
exactly, and `ecog` is range-checked. -/

def lookupField (fs : List (String × JValue)) (k : String) : Option JValue :=
  match fs.find? (fun kv => kv.1 == k) with
  | some kv => some kv.2
  | none => none

def keysOf (fs : List (String × JValue)) : List String :=
  fs.map Prod.fst

def nodupStr : List String → Bool
  | [] => true
  | k :: rest => !(rest.contains k) && nodupStr rest

/-- Object admissibility: unique keys (a JSON-object invariant) all of which
are declared in the model (`extra="forbid"`). -/
def keysOk (fs : List (String × JValue)) (declared : List String) : Bool :=
  nodupStr (keysOf fs) && fs.all (fun kv => declared.contains kv.1)

def jOptStr : JValue → Option (Option String)
  | .null => some none
  | .str s => some (some s)
  | _ => none

def jOptInt : JValue → Option (Option Int)
  | .null => some none
  | .int n => some (some n)
  | .float q => if q.den == 1 then some (some q.num) else none
  | _ => none

def jOptNum : JValue → Option (Option ℚ)
  | .null => some none
  | .int n => some (some (Rat.ofInt n))
  | .float q => some (some q)
  | _ => none

def jOptBool : JValue → Option (Option Bool)
  | .null => some none
  | .bool b => some (some b)
  | _ => none

def jBool : JValue → Option Bool
  | .bool b => some b
  | _ => none

def jStr : JValue → Option String
  | .str s => some s
  | _ => none

def jLit (allowed : List String) : JValue → Option (Option String)
  | .null => some none
  | .str s => if allowed.contains s then some (some s) else none
  | _ => none

def jLitR (allowed : List String) : JValue → Option String
  | .str s => if allowed.contains s then some s else none
  | _ => none

/-- `ecog: Optional[int] = Field(None, ge=0, le=4)`. -/
def jEcog : JValue → Option (Option Int)
  | .null => some none
  | .int n => if 0 ≤ n ∧ n ≤ 4 then some (some n) else none
  | .float q =>
    if q.den == 1 then (if 0 ≤ q.num ∧ q.num ≤ 4 then some (some q.num) else none) else none
  | _ => none

def jStrList : List JValue → Option (List String)
  | [] => some []
  | .str s :: rest => (jStrList rest).map (s :: ·)
  | _ => none

def jOptStrList : JValue → Option (Option (List String))
  | .null => some none
  | .arr xs => (jStrList xs).map some
  | _ => none

def jOptDict : JValue → Option (Option (List (String × JValue)))
  | .null => some none
  | .obj fs => some (some fs)
  | _ => none

def jListOf {α : Type} (dec : JValue → Option α) : List JValue → Option (List α)
  | [] => some []
  | j :: rest =>
    match dec j with
    | some x => (jListOf dec rest).map (x :: ·)
    | none => none

def jOptListOf {α : Type} (dec : JValue → Option α) : JValue → Option (Option (List α))
  | .null => some none
  | .arr xs => (jListOf dec xs).map some
  | _ => none

def jListR {α : Type} (dec : JValue → Option α) : JValue → Option (List α)
  | .arr xs => jListOf dec xs
  | _ => none

/-- A field with a default: absent means the default, present means decoded. -/
def fieldD {α : Type} (fs : List (String × JValue)) (k : String)
    (dec : JValue → Option α) (dflt : α) : Option α :=
  match lookupField fs k with
  | none => some dflt
  | some j => dec j

/-- A required field. -/
def fieldR {α : Type} (fs : List (String × JValue)) (k : String)
    (dec : JValue → Option α) : Option α :=
  match lookupField fs k with
  | none => none
  | some j => dec j

def categoryLits : List String := ["Surgical", "Locoregional", "Systemic", "Palliative", "Other"]
def nodulesLits : List String := ["single", "2-3", ">3", "not_reported"]
def ascitesLits : List String := ["none", "mild_controlled", "moderate_severe"]
def encephLits : List String := ["none", "grade_1_2", "grade_3_4"]
def classLetterLits : List String := ["A", "B", "C"]
def stageLits : List String := ["0", "A", "B", "C", "D"]
def evidenceLevelLits : List String := ["high", "moderate", "low"]

def smKeys : List String :=
  ["pmid", "title", "year", "journal", "doi", "study_design", "phase",
   "sample_size_total", "arms", "comparator"]

def validateStudyMetadata : JValue → Option StudyMetadata
  | .obj fs =>
    if keysOk fs smKeys then do
      let pmid ← fieldD fs "pmid" jOptStr none
      let title ← fieldD fs "title" jOptStr none
      let year ← fieldD fs "year" jOptInt none
      let journal ← fieldD fs "journal" jOptStr none
      let doi ← fieldD fs "doi" jOptStr none
      let sd ← fieldD fs "study_design" jOptStr none
      let ph ← fieldD fs "phase" jOptStr none
      let sst ← fieldD fs "sample_size_total" jOptInt none
      let arms ← fieldD fs "arms" jOptStrList none
      let comp ← fieldD fs "comparator" jOptStr none
      some ⟨pmid, title, year, journal, doi, sd, ph, sst, arms, comp⟩
    else none
  | _ => none

def treatmentKeys : List String :=
  ["name", "category", "line_of_therapy", "duration", "combination", "components"]

def validateTreatment : JValue → Option Treatment
  | .obj fs =>
    if keysOk fs treatmentKeys then do
      let name ← fieldD fs "name" jOptStr none
      let cat ← fieldD fs "category" (jLit categoryLits) none
      let lot ← fieldD fs "line_of_therapy" jOptStr none
      let dur ← fieldD fs "duration" jOptStr none
      let comb ← fieldD fs "combination" jOptBool none
      let comps ← fieldD fs "components" jOptStrList none
      some ⟨name, cat, lot, dur, comb, comps⟩
    else none
  | _ => none

def tumorKeys : List String :=
  ["nodules", "largest_nodule_cm", "vascular_invasion", "extrahepatic_spread",
   "afp_ng_ml", "afp_gt_400"]

def validateTumorBurden : JValue → Option TumorBurden
  | .obj fs =>
    if keysOk fs tumorKeys then do
      let nod ← fieldD fs "nodules" (jLit nodulesLits) none
      let lnc ← fieldD fs "largest_nodule_cm" jOptNum none
      let vi ← fieldD fs "vascular_invasion" jOptBool none
      let ehs ← fieldD fs "extrahepatic_spread" jOptBool none
      let afp ← fieldD fs "afp_ng_ml" jOptNum none
      let afp4 ← fieldD fs "afp_gt_400" jOptBool none
      some ⟨nod, lnc, vi, ehs, afp, afp4⟩
    else none
  | _ => none

def childPughKeys : List String :=
  ["bilirubin_mg_dl", "albumin_g_dl", "inr", "ascites", "encephalopathy",
   "class_letter", "score"]

def validateChildPugh : JValue → Option ChildPugh
  | .obj fs =>
    if keysOk fs childPughKeys then do
      let bili ← fieldD fs "bilirubin_mg_dl" jOptNum none
      let alb ← fieldD fs "albumin_g_dl" jOptNum none
      let inr ← fieldD fs "inr" jOptNum none
      let asc ← fieldD fs "ascites" (jLit ascitesLits) none
      let enc ← fieldD fs "encephalopathy" (jLit encephLits) none
      let cl ← fieldD fs "class_letter" (jLit classLetterLits) none
      let sc ← fieldD fs "score" jOptInt none
      some ⟨bili, alb, inr, asc, enc, cl, sc⟩
    else none
  | _ => none

def validatePerformanceStatus : JValue → Option PerformanceStatus
  | .obj fs =>
    if keysOk fs ["ecog"] then do
      let e ← fieldD fs "ecog" jEcog none
      some ⟨e⟩
    else none
  | _ => none

def baselineKeys : List String := ["tumor_burden", "child_pugh", "performance_status"]

def validateBCLCBaseline : JValue → Option BCLCBaseline
  | .obj fs =>
    if keysOk fs baselineKeys then do
      let tb ← fieldD fs "tumor_burden" validateTumorBurden {}
      let cp ← fieldD fs "child_pugh" validateChildPugh {}
      let ps ← fieldD fs "performance_status" validatePerformanceStatus {}
      some ⟨tb, cp, ps⟩
    else none
  | _ => none

def cuseKeys : List String :=
  ["mentioned", "cuse_criteria", "personalized_factors", "decision_logic"]

def validateBCLC2025CUSE : JValue → Option BCLC2025CUSE
  | .obj fs =>
    if keysOk fs cuseKeys then do
      let m ← fieldD fs "mentioned" jBool false
      let cc ← fieldD fs "cuse_criteria" jOptStrList none
      let pf ← fieldD fs "personalized_factors" jOptStrList none
      let dl ← fieldD fs "decision_logic" jOptStr none
      some ⟨m, cc, pf, dl⟩
    else none
  | _ => none

def metricKeys : List String :=
  ["value", "ci", "p_value", "hr", "hr_ci", "follow_up", "evidence_section",
   "evidence_page", "table_figure", "verbatim_excerpt"]

def validateOutcomeMetric : JValue → Option OutcomeMetric
  | .obj fs =>
    if keysOk fs metricKeys then do
      let v ← fieldD fs "value" jOptStr none
      let ci ← fieldD fs "ci" jOptStr none
      let pv ← fieldD fs "p_value" jOptStr none
      let hr ← fieldD fs "hr" jOptNum none
      let hrci ← fieldD fs "hr_ci" jOptStr none
      let fu ← fieldD fs "follow_up" jOptStr none
      let es ← fieldD fs "evidence_section" jOptStr none
      let ep ← fieldD fs "evidence_page" jOptInt none
      let tf ← fieldD fs "table_figure" jOptStr none
      let ve ← fieldD fs "verbatim_excerpt" jOptStr none
      some ⟨v, ci, pv, hr, hrci, fu, es, ep, tf, ve⟩
    else none
  | _ => none

def spanKeys : List String :=
  ["field_path", "value_json", "evidence_section", "evidence_page",
   "table_figure", "verbatim_excerpt", "locator"]

def validateEvidenceSpan : JValue → Option EvidenceSpan
  | .obj fs =>
    if keysOk fs spanKeys then do
      let fp ← fieldR fs "field_path" jStr
      let vj ← fieldR fs "value_json" jStr
      let es ← fieldD fs "evidence_section" jOptStr none
      let ep ← fieldD fs "evidence_page" jOptInt none
      let tf ← fieldD fs "table_figure" jOptStr none
      let ve ← fieldD fs "verbatim_excerpt" jOptStr none
      let loc ← fieldD fs "locator" jOptStr none
      some ⟨fp, vj, es, ep, tf, ve, loc⟩
    else none
  | _ => none

def resultsKeys : List String :=
  ["response_criteria", "os", "pfs", "orr", "dcr", "ttp", "other"]

def validateResults : JValue → Option Results
  | .obj fs =>
    if keysOk fs resultsKeys then do
      let rc ← fieldD fs "response_criteria" jOptStr none
      let os ← fieldD fs "os" validateOutcomeMetric {}
      let pfs ← fieldD fs "pfs" validateOutcomeMetric {}
      let orr ← fieldD fs "orr" validateOutcomeMetric {}
      let dcr ← fieldD fs "dcr" validateOutcomeMetric {}
      let ttp ← fieldD fs "ttp" validateOutcomeMetric {}
      let other ← fieldD fs "other" jOptDict none
      some ⟨rc, os, pfs, orr, dcr, ttp, other⟩
    else none
  | _ => none

def aeKeys : List String := ["name", "grade", "frequency", "notes"]

def validateAdverseEvent : JValue → Option AdverseEvent
  | .obj fs =>
    if keysOk fs aeKeys then do
      let n ← fieldD fs "name" jOptStr none
      let g ← fieldD fs "grade" jOptStr none
      let f ← fieldD fs "frequency" jOptStr none
      let notes ← fieldD fs "notes" jOptStr none
      some ⟨n, g, f, notes⟩
    else none
  | _ => none

def safetyKeys : List String :=
  ["any_adverse_events_reported", "grade_3_4_events", "saes",
   "discontinuation_due_to_toxicity", "treatment_related_deaths", "narrative"]

def validateSafety : JValue → Option Safety
  | .obj fs =>
    if keysOk fs safetyKeys then do
      let aer ← fieldD fs "any_adverse_events_reported" jOptBool none
      let g34 ← fieldD fs "grade_3_4_events" (jOptListOf validateAdverseEvent) none
      let saes ← fieldD fs "saes" (jOptListOf validateAdverseEvent) none
      let disc ← fieldD fs "discontinuation_due_to_toxicity" jOptStr none
      let trd ← fieldD fs "treatment_related_deaths" jOptStr none
      let narr ← fieldD fs "narrative" jOptStr none
      some ⟨aer, g34, saes, disc, trd, narr⟩
    else none
  | _ => none

def armKeys : List String :=
  ["arm_name", "treatment", "bclc_baseline", "bclc_stage_reported",
   "bclc_2025_cuse", "results", "safety"]

def validateExperimentArm : JValue → Option ExperimentArm
  | .obj fs =>
    if keysOk fs armKeys then do
      let an ← fieldD fs "arm_name" jOptStr none
      let tr ← fieldD fs "treatment" validateTreatment {}
      let bb ← fieldD fs "bclc_baseline" validateBCLCBaseline {}
      let stage ← fieldD fs "bclc_stage_reported" (jLit stageLits) none
      let cuse ← fieldD fs "bclc_2025_cuse" validateBCLC2025CUSE {}
      let res ← fieldD fs "results" validateResults {}
      let saf ← fieldD fs "safety" validateSafety {}
      some ⟨an, tr, bb, stage, cuse, res, saf⟩
    else none
  | _ => none

def rootKeys : List String :=
  ["study_metadata", "experiments", "evidence_level", "evidence_spans"]

def validateExtractionOutput : JValue → Option ExtractionOutput
  | .obj fs =>
    if keysOk fs rootKeys then do
      let sm ← fieldR fs "study_metadata" validateStudyMetadata
      let exps ← fieldR fs "experiments" (jListR validateExperimentArm)
      let el ← fieldR fs "evidence_level" (jLitR evidenceLevelLits)
      let spans ← fieldR fs "evidence_spans" (jListR validateEvidenceSpan)
      some ⟨sm, exps, el, spans⟩
    else none
  | _ => none

/-! ## Serialization (`model_dump_json`): every declared field is emitted,
absent optionals as `null`. -/

def jOfOptStr : Option String → JValue
  | none => .null
  | some s => .str s

def jOfOptInt : Option Int → JValue
  | none => .null
  | some n => .int n

def jOfOptNum : Option ℚ → JValue
  | none => .null
  | some q => .float q

def jOfOptBool : Option Bool → JValue
  | none => .null
  | some b => .bool b

def jOfOptStrList : Option (List String) → JValue
  | none => .null
  | some xs => .arr (xs.map .str)

def jOfOptDict : Option (List (String × JValue)) → JValue
  | none => .null
  | some fs => .obj fs

def studyMetadataJ (m : StudyMetadata) : JValue :=
  .obj
    [("pmid", jOfOptStr m.pmid), ("title", jOfOptStr m.title),
     ("year", jOfOptInt m.year), ("journal", jOfOptStr m.journal),
     ("doi", jOfOptStr m.doi), ("study_design", jOfOptStr m.study_design),
     ("phase", jOfOptStr m.phase), ("sample_size_total", jOfOptInt m.sample_size_total),
     ("arms", jOfOptStrList m.arms), ("comparator", jOfOptStr m.comparator)]

def treatmentJ (t : Treatment) : JValue :=
  .obj
    [("name", jOfOptStr t.name), ("category", jOfOptStr t.category),
     ("line_of_therapy", jOfOptStr t.line_of_therapy), ("duration", jOfOptStr t.duration),
     ("combination", jOfOptBool t.combination), ("components", jOfOptStrList t.components)]

def tumorBurdenJ (t : TumorBurden) : JValue :=
  .obj
    [("nodules", jOfOptStr t.nodules), ("largest_nodule_cm", jOfOptNum t.largest_nodule_cm),
     ("vascular_invasion", jOfOptBool t.vascular_invasion),
     ("extrahepatic_spread", jOfOptBool t.extrahepatic_spread),
     ("afp_ng_ml", jOfOptNum t.afp_ng_ml), ("afp_gt_400", jOfOptBool t.afp_gt_400)]

def childPughJ (c : ChildPugh) : JValue :=
  .obj
    [("bilirubin_mg_dl", jOfOptNum c.bilirubin_mg_dl),
     ("albumin_g_dl", jOfOptNum c.albumin_g_dl), ("inr", jOfOptNum c.inr),
     ("ascites", jOfOptStr c.ascites), ("encephalopathy", jOfOptStr c.encephalopathy),
     ("class_letter", jOfOptStr c.class_letter), ("score", jOfOptInt c.score)]

def performanceStatusJ (p : PerformanceStatus) : JValue :=
  .obj [("ecog", jOfOptInt p.ecog)]

def baselineJ (b : BCLCBaseline) : JValue :=
  .obj
    [("tumor_burden", tumorBurdenJ b.tumor_burden),
     ("child_pugh", childPughJ b.child_pugh),
     ("performance_status", performanceStatusJ b.performance_status)]

def cuseJ (c : BCLC2025CUSE) : JValue :=
  .obj
    [("mentioned", .bool c.mentioned), ("cuse_criteria", jOfOptStrList c.cuse_criteria),
     ("personalized_factors", jOfOptStrList c.personalized_factors),
     ("decision_logic", jOfOptStr c.decision_logic)]

def metricJ (m : OutcomeMetric) : JValue :=
  .obj
    [("value", jOfOptStr m.value), ("ci", jOfOptStr m.ci),
     ("p_value", jOfOptStr m.p_value), ("hr", jOfOptNum m.hr),
     ("hr_ci", jOfOptStr m.hr_ci), ("follow_up", jOfOptStr m.follow_up),
     ("evidence_section", jOfOptStr m.evidence_section),
     ("evidence_page", jOfOptInt m.evidence_page),
     ("table_figure", jOfOptStr m.table_figure),
     ("verbatim_excerpt", jOfOptStr m.verbatim_excerpt)]

def spanJ (s : EvidenceSpan) : JValue :=
  .obj
    [("field_path", .str s.field_path), ("value_json", .str s.value_json),
     ("evidence_section", jOfOptStr s.evidence_section),
     ("evidence_page", jOfOptInt s.evidence_page),
     ("table_figure", jOfOptStr s.table_figure),
     ("verbatim_excerpt", jOfOptStr s.verbatim_excerpt),
     ("locator", jOfOptStr s.locator)]

def resultsJ (r : Results) : JValue :=
  .obj
    [("response_criteria", jOfOptStr r.response_criteria),
     ("os", metricJ r.os), ("pfs", metricJ r.pfs), ("orr", metricJ r.orr),
     ("dcr", metricJ r.dcr), ("ttp", metricJ r.ttp), ("other", jOfOptDict r.other)]

def adverseEventJ (a : AdverseEvent) : JValue :=
  .obj
    [("name", jOfOptStr a.name), ("grade", jOfOptStr a.grade),
     ("frequency", jOfOptStr a.frequency), ("notes", jOfOptStr a.notes)]

def jOfOptAeList : Option (List AdverseEvent) → JValue
  | none => .null
  | some xs => .arr (xs.map adverseEventJ)

def safetyJ (s : Safety) : JValue :=
  .obj
    [("any_adverse_events_reported", jOfOptBool s.any_adverse_events_reported),
     ("grade_3_4_events", jOfOptAeList s.grade_3_4_events),
     ("saes", jOfOptAeList s.saes),
     ("discontinuation_due_to_toxicity", jOfOptStr s.discontinuation_due_to_toxicity),
     ("treatment_related_deaths", jOfOptStr s.treatment_related_deaths),
     ("narrative", jOfOptStr s.narrative)]

def armJ (a : ExperimentArm) : JValue :=
  .obj
    [("arm_name", jOfOptStr a.arm_name), ("treatment", treatmentJ a.treatment),
     ("bclc_baseline", baselineJ a.bclc_baseline),
     ("bclc_stage_reported", jOfOptStr a.bclc_stage_reported),
     ("bclc_2025_cuse", cuseJ a.bclc_2025_cuse),
     ("results", resultsJ a.results), ("safety", safetyJ a.safety)]

def extractionOutputJ (o : ExtractionOutput) : JValue :=
  .obj
    [("study_metadata", studyMetadataJ o.study_metadata),
     ("experiments", .arr (o.experiments.map armJ)),
     ("evidence_level", .str o.evidence_level),
     ("evidence_spans", .arr (o.evidence_spans.map spanJ))]

/-! ## The declared-key tree of the schema

A skeleton of the model hierarchy that records, at every position, which
keys an object may carry.  `anyN` marks `Dict[str, Any]` payloads and other
positions without key constraints. -/

inductive SNode where
  | scalarN
  | anyN
  | listN (elt : SNode)
  | objN (fields : List (String × SNode))

def lookupS (fl : List (String × SNode)) (k : String) : Option SNode :=
  match fl.find? (fun kv => kv.1 == k) with
  | some kv => some kv.2
  | none => none

def smNode : SNode :=
  .objN
    [("pmid", .scalarN), ("title", .scalarN), ("year", .scalarN),
     ("journal", .scalarN), ("doi", .scalarN), ("study_design", .scalarN),
     ("phase", .scalarN), ("sample_size_total", .scalarN),
     ("arms", .listN .scalarN), ("comparator", .scalarN)]

def treatmentNode : SNode :=
  .objN
    [("name", .scalarN), ("category", .scalarN), ("line_of_therapy", .scalarN),
     ("duration", .scalarN), ("combination", .scalarN), ("components", .listN .scalarN)]

def tumorNode : SNode :=
  .objN
    [("nodules", .scalarN), ("largest_nodule_cm", .scalarN),
     ("vascular_invasion", .scalarN), ("extrahepatic_spread", .scalarN),
     ("afp_ng_ml", .scalarN), ("afp_gt_400", .scalarN)]

def childPughNode : SNode :=
  .objN
    [("bilirubin_mg_dl", .scalarN), ("albumin_g_dl", .scalarN), ("inr", .scalarN),
     ("ascites", .scalarN), ("encephalopathy", .scalarN), ("class_letter", .scalarN),
     ("score", .scalarN)]

def psNode : SNode := .objN [("ecog", .scalarN)]

def baselineNode : SNode :=
  .objN
    [("tumor_burden", tumorNode), ("child_pugh", childPughNode),
     ("performance_status", psNode)]

def cuseNode : SNode :=
  .objN
    [("mentioned", .scalarN), ("cuse_criteria", .listN .scalarN),
     ("personalized_factors", .listN .scalarN), ("decision_logic", .scalarN)]

def metricNode : SNode :=
  .objN
    [("value", .scalarN), ("ci", .scalarN), ("p_value", .scalarN), ("hr", .scalarN),
     ("hr_ci", .scalarN), ("follow_up", .scalarN), ("evidence_section", .scalarN),
     ("evidence_page", .scalarN), ("table_figure", .scalarN),
     ("verbatim_excerpt", .scalarN)]

def spanNode : SNode :=
  .objN
    [("field_path", .scalarN), ("value_json", .scalarN), ("evidence_section", .scalarN),
     ("evidence_page", .scalarN), ("table_figure", .scalarN),
     ("verbatim_excerpt", .scalarN), ("locator", .scalarN)]

def resultsNode : SNode :=
  .objN
    [("response_criteria", .scalarN), ("os", metricNode), ("pfs", metricNode),
     ("orr", metricNode), ("dcr", metricNode), ("ttp", metricNode), ("other", .anyN)]

def aeNode : SNode :=
  .objN [("name", .scalarN), ("grade", .scalarN), ("frequency", .scalarN), ("notes", .scalarN)]

def safetyNode : SNode :=
  .objN
    [("any_adverse_events_reported", .scalarN), ("grade_3_4_events", .listN aeNode),
     ("saes", .listN aeNode), ("discontinuation_due_to_toxicity", .scalarN),
     ("treatment_related_deaths", .scalarN), ("narrative", .scalarN)]

def armNode : SNode :=
  .objN
    [("arm_name", .scalarN), ("treatment", treatmentNode),
     ("bclc_baseline", baselineNode), ("bclc_stage_reported", .scalarN),
     ("bclc_2025_cuse", cuseNode), ("results", resultsNode), ("safety", safetyNode)]

def rootNode : SNode :=
  .objN
    [("study_metadata", smNode), ("experiments", .listN armNode),
     ("evidence_level", .scalarN), ("evidence_spans", .listN spanNode)]

/- `allDeclared`: every key of every object in the document, at any nesting
depth, is declared at the corresponding schema position. -/
mutual
def allDeclared (s : SNode) : JValue → Bool
  | .obj fs =>
    match s with
    | .objN fl => allDeclaredFields fl fs
    | _ => true
  | .arr xs =>
    match s with
    | .listN n => allDeclaredList n xs
    | _ => true
  | _ => true

def allDeclaredFields (fl : List (String × SNode)) : List (String × JValue) → Bool
  | [] => true
  | (k, v) :: rest =>
    (match lookupS fl k with
     | some n => allDeclared n v
     | none => false) && allDeclaredFields fl rest

def allDeclaredList (n : SNode) : List JValue → Bool
  | [] => true
  | v :: rest => allDeclared n v && allDeclaredList n rest
end

/-! ## Paths into a document, and inserting/removing one key -/

inductive PathElem where
  | field (k : String)
  | idx (i : Nat)

/-- The schema position reached by a path of field names and list indices. -/
def schemaAt : SNode → List PathElem → Option SNode
  | n, [] => some n
  | .objN fl, .field k :: p =>
    match lookupS fl k with
    | some n => schemaAt n p
    | none => none
  | .listN n, .idx _ :: p => schemaAt n p
  | _, _ => none

def setFirstField : List (String × JValue) → String → JValue → List (String × JValue)
  | [], _, _ => []
  | (k, v) :: rest, f, w =>
    if k == f then (k, w) :: rest else (k, v) :: setFirstField rest f w

def eraseFirstKey : List (String × JValue) → String → List (String × JValue)
  | [], _ => []
  | (k, v) :: rest, f => if k == f then rest else (k, v) :: eraseFirstKey rest f

/-- Insert the extra key `k ↦ v` into the object reached by `path`. -/
def insertKeyAt : List PathElem → String → JValue → JValue → Option JValue
  | [], k, v, .obj fs => some (.obj ((k, v) :: fs))
  | .field f :: p, k, v, .obj fs =>
    match lookupField fs f with
    | some sub =>
      match insertKeyAt p k v sub with
      | some sub2 => some (.obj (setFirstField fs f sub2))
      | none => none
    | none => none
  | .idx i :: p, k, v, .arr xs =>
    match xs[i]? with
    | some sub =>
      match insertKeyAt p k v sub with
      | some sub2 => some (.arr (xs.set i sub2))
      | none => none
    | none => none
  | _, _, _, _ => none

/-- Remove the first occurrence of key `k` from the object reached by `path`. -/
def removeKeyAt : List PathElem → String → JValue → Option JValue
  | [], k, .obj fs => some (.obj (eraseFirstKey fs k))
  | .field f :: p, k, .obj fs =>
    match lookupField fs f with
    | some sub =>
      match removeKeyAt p k sub with
      | some sub2 => some (.obj (setFirstField fs f sub2))
      | none => none
    | none => none
  | .idx i :: p, k, .arr xs =>
    match xs[i]? with
    | some sub =>
      match removeKeyAt p k sub with
      | some sub2 => some (.arr (xs.set i sub2))
      | none => none
    | none => none
  | _, _, _ => none

/-! ## Pointwise update of one endpoint's value string

Used to state that an unparsable value affects only its own (arm, endpoint)
row: the document with that one value replaced is compared against the
original. -/

def updateMetricValue (m : OutcomeMetric) (v : Option String) : OutcomeMetric :=
  { m with value := v }

def updateArmEp (a : ExperimentArm) (ep : String) (v : Option String) : ExperimentArm :=
  if ep == "OS" then { a with results := { a.results with os := updateMetricValue a.results.os v } }
  else if ep == "PFS" then
    { a with results := { a.results with pfs := updateMetricValue a.results.pfs v } }
  else if ep == "TTP" then
    { a with results := { a.results with ttp := updateMetricValue a.results.ttp v } }
  else a

def epMetric (a : ExperimentArm) (ep : String) : OutcomeMetric :=
  if ep == "OS" then a.results.os
  else if ep == "PFS" then a.results.pfs
  else if ep == "TTP" then a.results.ttp
  else {}

def epValue (a : ExperimentArm) (ep : String) : Option String :=
  (epMetric a ep).value

def setArmEpValue (out : ExtractionOutput) (i : Nat) (ep : String) (v : Option String) :
    ExtractionOutput :=
  match out.experiments[i]? with
  | some a => { out with experiments := out.experiments.set i (updateArmEp a ep v) }
  | none => out

/-- The entries of `results_map` strictly before endpoint `ep`. -/
def results_map_before (r : Results) (ep : String) : List (String × OutcomeMetric) :=
  if ep == "OS" then []
  else if ep == "PFS" then [("OS", r.os)]
  else if ep == "TTP" then [("OS", r.os), ("PFS", r.pfs)]
  else []

/-- The entries of `results_map` strictly after endpoint `ep`. -/
def results_map_after (r : Results) (ep : String) : List (String × OutcomeMetric) :=
  if ep == "OS" then [("PFS", r.pfs), ("TTP", r.ttp)]
  else if ep == "PFS" then [("TTP", r.ttp)]
  else if ep == "TTP" then []
  else []

/-! ## Concrete example extractions -/

def lenvMetric : OutcomeMetric := { value := some "13.6 months" }

def soraMetric : OutcomeMetric := { value := some "12.3 months" }

def lenvArm : ExperimentArm := { arm_name := some "Lenvatinib", results := { os := lenvMetric } }

def soraArm : ExperimentArm := { arm_name := some "Sorafenib", results := { os := soraMetric } }

/-- The documented comparative example: `REFLECT`-style Lenvatinib vs
Sorafenib with OS medians 13.6 and 12.3 months. -/
def reflectOut : ExtractionOutput :=
  { study_metadata := { arms := some ["Lenvatinib", "Sorafenib"], comparator := some "Sorafenib" }
    experiments := [lenvArm, soraArm]
    evidence_level := "high"
    evidence_spans := [] }

/-- A declared comparator that is the empty string, naming an arm whose
`arm_name` is the empty string. -/
def emptyComparatorOut : ExtractionOutput :=
  { study_metadata := { comparator := some "" }
    experiments := [{ arm_name := some "", results := { os := soraMetric } }, lenvArm]
    evidence_level := "high"
    evidence_spans := [] }

/-- A single-arm study without a comparator. -/
def noComparatorOut : ExtractionOutput :=
  { study_metadata := {}
    experiments := [lenvArm]
    evidence_level := "high"
    evidence_spans := [] }

/-- Metadata whose `pmid` is the empty string (non-null but falsy). -/
def blankPmidOut : ExtractionOutput :=
  { study_metadata := { pmid := some "", title := some "A title" }
    experiments := []
    evidence_level := "high"
    evidence_spans := [] }

/-- An extraction with one evidence span, for the atomicity example. -/
def spanOut : ExtractionOutput :=
  { study_metadata := { pmid := some "123" }
    experiments := []
    evidence_level := "high"
    evidence_spans := [{ field_path := "study_metadata.title", value_json := "null" }] }

/-- A store that rejects every evidence-span insert. -/
def failSpans : FailureOracle :=
  { noFail with spanFails := fun _ => true }

/-- A document with no experiment arms at all. -/
def noArmsOut : ExtractionOutput :=
  { study_metadata := {}
    experiments := []
    evidence_level := "low"
    evidence_spans := [] }

/-- A store holding one article matched by pmid and a different article
matched by doi. -/
def dupStore : Store :=
  { nextId := 2
    articles :=
      [{ id := 0, pmid := some "101", doi := none, title := none, journal := none,
         year := none, article_type := none, pdf_path := none },
       { id := 1, pmid := none, doi := some "10.1/x", title := none, journal := none,
         year := none, article_type := none, pdf_path := none }]
    extractions := []
    evidence_spans := []
    outcomes := [] }

/-- Metadata whose pmid matches one stored article while its doi matches a
different one. -/
def crossOut : ExtractionOutput :=
  { study_metadata := { pmid := some "101", doi := some "10.1/x" }
    experiments := []
    evidence_level := "moderate"
    evidence_spans := [] }

/-- A minimal valid document for `noArmsOut`. -/
def rootDoc : JValue :=
  .obj
    [("study_metadata", .obj []), ("experiments", .arr []),
     ("evidence_level", .str "low"), ("evidence_spans", .arr [])]

/-- `rootDoc` with one undeclared key inside `study_metadata`. -/
def extraKeyDoc : JValue :=
  .obj
    [("study_metadata", .obj [("extra", .bool true)]), ("experiments", .arr []),
     ("evidence_level", .str "low"), ("evidence_spans", .arr [])]

/-! ## Validity predicates

The constraints the validators enforce beyond structure: literal-set
membership and the `ecog` range.  A validated model always satisfies them,
and a model satisfying them re-validates from its serialized form. -/

def litOk (o : Option String) (allowed : List String) : Bool :=
  match o with
  | none => true
  | some s => allowed.contains s

def ecogOk (o : Option Int) : Bool :=
  match o with
  | none => true
  | some n => decide (0 ≤ n) && decide (n ≤ 4)

def treatmentOk (t : Treatment) : Bool :=
  litOk t.category categoryLits

def tumorOk (t : TumorBurden) : Bool :=
  litOk t.nodules nodulesLits

def childPughOk (c : ChildPugh) : Bool :=
  litOk c.ascites ascitesLits && litOk c.encephalopathy encephLits &&
    litOk c.class_letter classLetterLits

def psOk (p : PerformanceStatus) : Bool :=
  ecogOk p.ecog

def baselineOk (b : BCLCBaseline) : Bool :=
  tumorOk b.tumor_burden && childPughOk b.child_pugh && psOk b.performance_status

def armOk (a : ExperimentArm) : Bool :=
  treatmentOk a.treatment && baselineOk a.bclc_baseline &&
    litOk a.bclc_stage_reported stageLits

def outOk (o : ExtractionOutput) : Bool :=
  evidenceLevelLits.contains o.evidence_level && o.experiments.all armOk

/-- Nodes below which no object key can occur. -/
def flatNodeB : SNode → Bool
  | .scalarN => true
  | .anyN => true
  | .listN n => flatNodeB n
  | .objN _ => false

/-! # Theorems -/

/-! ## p-value parsing (C7) -/

/-- C7: p-value parsing: `"p<0.001"` parses to `0.001` and `"p=0.05"` parses
to `0.05` (stripping `p`, `<`, `=` and whitespace, then casting the
remainder); a null or empty input yields null, and any string whose remainder
is not numeric yields null. -/
theorem c7_p_value_parsing :
    (parse_p_value (some "p<0.001") = some (.finite 1 (-3)) ∧
      pyToRat (.finite 1 (-3)) = some (0.001 : ℚ)) ∧
    (parse_p_value (some "p=0.05") = some (.finite 5 (-2)) ∧
      pyToRat (.finite 5 (-2)) = some (0.05 : ℚ)) ∧
    parse_p_value none = none ∧
    parse_p_value (some "") = none ∧
    (∀ s : String, pyFloatList? (p_value_remainder s) = none → parse_p_value (some s) = none) := by
  refine ⟨⟨by decide, ?_⟩, ⟨by decide, ?_⟩, rfl, by decide, ?_⟩
  · show some ((1 : ℚ) * (10 : ℚ) ^ (-3 : ℤ)) = some (0.001 : ℚ)
    norm_num
  · show some ((5 : ℚ) * (10 : ℚ) ^ (-2 : ℤ)) = some (0.05 : ℚ)
    norm_num
  · intro s h
    by_cases hs : s = ""
    · subst hs; decide
    · simp only [parse_p_value]
      rw [if_neg (by simpa using hs)]
      exact h

theorem c7_p_value_parsing_witness : parse_p_value (some "ns") = none :=
  c7_p_value_parsing.2.2.2.2 "ns" (by decide)

/-! ## CI parsing (C8) -/

/-- `ci_parts` can only raise `ValueError`. -/
theorem ci_parts_only_valueError (ps : List (List Char)) (e : PyExc)
    (h : ci_parts ps = .error e) : e = .valueError := by
  rcases ps with _ | ⟨a, _ | ⟨b, _ | ⟨c, t⟩⟩⟩
  · injection h with h2; exact h2.symm
  · injection h with h2; exact h2.symm
  · simp only [ci_parts] at h
    cases ha : float_exc a <;> rw [ha] at h
    · injection h with h2
      subst h2
      unfold float_exc at ha
      cases hfa : pyFloatList? a <;> rw [hfa] at ha
      · injection ha with h3; exact h3.symm
      · exact Except.noConfusion ha
    · cases hb : float_exc b <;> rw [hb] at h
      · injection h with h2
        subst h2
        unfold float_exc at hb
        cases hfb : pyFloatList? b <;> rw [hfb] at hb
        · injection hb with h3; exact h3.symm
        · exact Except.noConfusion hb
      · exact Except.noConfusion h
  · injection h with h2; exact h2.symm

/-- `ci_inner` can only raise `ValueError`. -/
theorem ci_inner_only_valueError (s : String) (e : PyExc) (h : ci_inner s = .error e) :
    e = .valueError :=
  ci_parts_only_valueError _ e h

/-- The pure parser agrees with the exception-explicit one. -/
theorem parse_ci_value_exc_ok (ci : Option String) :
    parse_ci_value_exc ci = .ok (parse_ci_value ci) := by
  cases ci with
  | none => rfl
  | some s =>
    by_cases hs : s = ""
    · subst hs; rfl
    · have hs' : (s == "") = false := by simpa using hs
      simp only [parse_ci_value_exc, parse_ci_value, hs', Bool.false_eq_true, if_false]
      cases h : ci_inner s with
      | ok p => obtain ⟨lo, hi⟩ := p; rfl
      | error e =>
        have he := ci_inner_only_valueError s e h
        subst he
        rfl

/-- C8: CI parsing is total and never raises: `"0.79-1.06"` parses to
`(0.79, 1.06)`; a null input or any malformed string — including
hyphen-delimited strings with negative bounds — gives `(None, None)`. -/
theorem c8_ci_parsing :
    (parse_ci_value (some "0.79-1.06") =
        (some (.finite 79 (-2)), some (.finite 106 (-2))) ∧
      pyToRat (.finite 79 (-2)) = some (0.79 : ℚ) ∧
      pyToRat (.finite 106 (-2)) = some (1.06 : ℚ)) ∧
    parse_ci_value none = (none, none) ∧
    parse_ci_value (some "-1.2--0.3") = (none, none) ∧
    (∀ ci : Option String, parse_ci_value_exc ci = .ok (parse_ci_value ci)) := by
  refine ⟨⟨by decide, ?_, ?_⟩, rfl, by decide, parse_ci_value_exc_ok⟩
  · show some ((79 : ℚ) * (10 : ℚ) ^ (-2 : ℤ)) = some (0.79 : ℚ)
    norm_num
  · show some ((106 : ℚ) * (10 : ℚ) ^ (-2 : ℤ)) = some (1.06 : ℚ)
    norm_num

/-! ## Outcome-derivation helper lemmas -/

theorem outcome_row_none (eid : Nat) (cname : Option String) (carm : Option ExperimentArm)
    (arm : ExperimentArm) (ep : String) (m : OutcomeMetric)
    (h : parse_numeric_value m.value = none) :
    outcome_row eid cname carm arm ep m = none := by
  simp [outcome_row, h]

theorem outcome_row_some (eid : Nat) (cname : Option String) (carm : Option ExperimentArm)
    (arm : ExperimentArm) (ep : String) (m : OutcomeMetric) (w : PyFloat)
    (h : parse_numeric_value m.value = some w) :
    outcome_row eid cname carm arm ep m =
      some
        { extraction_id := eid
          endpoint := ep
          group_a := pyOrStr arm.arm_name "N/A"
          group_b := cname
          median_a_months := w
          median_b_months :=
            (carm.bind (fun ca => comparator_metric ca ep)).bind
              (fun mb => parse_numeric_value mb.value)
          p_value := parse_p_value m.p_value
          hr := m.hr
          hr_ci_low := (parse_ci_value m.hr_ci).1
          hr_ci_high := (parse_ci_value m.hr_ci).2
          evidence_section := m.evidence_section
          evidence_page := m.evidence_page
          table_figure := m.table_figure
          verbatim_excerpt := m.verbatim_excerpt } := by
  cases carm <;> simp [outcome_row, h, Option.bind]

theorem filterMap_single {α β : Type} (f : α → Option β) (y : α) :
    [y].filterMap f = (f y).toList := by
  cases hy : f y <;> simp [List.filterMap_cons, hy, Option.toList]

theorem filterMap_pair {α β : Type} (f : α → Option β) (y z : α) :
    [y, z].filterMap f = (f y).toList ++ (f z).toList := by
  cases hy : f y <;> cases hz : f z <;>
    simp [List.filterMap_cons, hy, hz, Option.toList]

theorem filterMap_triple {α β : Type} (f : α → Option β) (x y z : α) :
    [x, y, z].filterMap f = (f x).toList ++ ((f y).toList ++ (f z).toList) := by
  cases hx : f x <;> cases hy : f y <;> cases hz : f z <;>
    simp [List.filterMap_cons, hx, hy, hz, Option.toList]

/-- An arm's contribution splits into the rows before an endpoint, the
endpoint's own optional row, and the rows after it. -/
theorem arm_rows_decomp (eid : Nat) (cname : Option String) (carm : Option ExperimentArm)
    (a : ExperimentArm) (ep : String) (hep : ep = "OS" ∨ ep = "PFS" ∨ ep = "TTP")
    (hskip : (a.arm_name == cname) = false) :
    arm_rows eid cname carm a =
      (results_map_before a.results ep).filterMap
          (fun p => outcome_row eid cname carm a p.1 p.2) ++
        (outcome_row eid cname carm a ep (epMetric a ep)).toList ++
        (results_map_after a.results ep).filterMap
          (fun p => outcome_row eid cname carm a p.1 p.2) := by
  rcases hep with h | h | h <;> subst h <;>
    simp [arm_rows, results_map, hskip, results_map_before, results_map_after, epMetric,
      filterMap_triple, filterMap_pair, filterMap_single, List.append_assoc]

theorem updateArmEp_arm_name (a : ExperimentArm) (ep : String) (v : Option String) :
    (updateArmEp a ep v).arm_name = a.arm_name := by
  unfold updateArmEp
  split_ifs <;> rfl

theorem epMetric_update (a : ExperimentArm) (ep : String) (v : Option String)
    (hep : ep = "OS" ∨ ep = "PFS" ∨ ep = "TTP") :
    epMetric (updateArmEp a ep v) ep = updateMetricValue (epMetric a ep) v := by
  rcases hep with h | h | h <;> subst h <;> simp [epMetric, updateArmEp]

theorem results_map_before_update (a : ExperimentArm) (ep : String) (v : Option String)
    (hep : ep = "OS" ∨ ep = "PFS" ∨ ep = "TTP") :
    results_map_before (updateArmEp a ep v).results ep = results_map_before a.results ep := by
  rcases hep with h | h | h <;> subst h <;> simp [results_map_before, updateArmEp]

theorem results_map_after_update (a : ExperimentArm) (ep : String) (v : Option String)
    (hep : ep = "OS" ∨ ep = "PFS" ∨ ep = "TTP") :
    results_map_after (updateArmEp a ep v).results ep = results_map_after a.results ep := by
  rcases hep with h | h | h <;> subst h <;> simp [results_map_after, updateArmEp]

theorem find?_set_of_false {α : Type} (p : α → Bool) (l : List α) :
    ∀ (i : Nat) (x : α), (∀ a, l[i]? = some a → p a = false) → p x = false →
      (l.set i x).find? p = l.find? p := by
  induction l with
  | nil => intro i x _ _; rfl
  | cons b t ih =>
    intro i x h hx
    cases i with
    | zero =>
      have hb : p b = false := h b (by simp)
      show (x :: t).find? p = (b :: t).find? p
      simp [List.find?, hb, hx]
    | succ i =>
      show (b :: t.set i x).find? p = (b :: t).find? p
      cases hb : p b
      · simp [List.find?, hb]
        exact ih i x (fun a ha => h a (by simpa using ha)) hx
      · simp [List.find?, hb]

theorem take_set_self {α : Type} (l : List α) :
    ∀ (i : Nat) (x : α), (l.set i x).take i = l.take i := by
  induction l with
  | nil => intro i x; rfl
  | cons b t ih =>
    intro i x
    cases i with
    | zero => rfl
    | succ i =>
      show b :: (t.set i x).take i = b :: t.take i
      rw [ih i x]

theorem find_comparator_setArmEp (out : ExtractionOutput) (i : Nat) (ep : String)
    (v : Option String) (a : ExperimentArm) (ha : out.experiments[i]? = some a)
    (hskip : (a.arm_name == out.study_metadata.comparator) = false) :
    find_comparator (setArmEpValue out i ep v) = find_comparator out := by
  unfold setArmEpValue
  rw [ha]
  show find_comparator { out with experiments := out.experiments.set i (updateArmEp a ep v) } =
    find_comparator out
  unfold find_comparator
  cases hc : out.study_metadata.comparator with
  | none => rfl
  | some c =>
    by_cases hcc : c = ""
    · subst hcc; simp
    · have hcf : (c == "") = false := by simpa using hcc
      simp only [hcf, Bool.false_eq_true, if_false]
      apply find?_set_of_false
      · intro b hb
        rw [ha] at hb
        cases hb
        rw [hc] at hskip
        exact hskip
      · rw [updateArmEp_arm_name]
        rw [hc] at hskip
        exact hskip

/-- The full row list splits around the contribution of the arm at index `i`. -/
theorem outcomes_rows_split (eid : Nat) (out : ExtractionOutput) (i : Nat) (a : ExperimentArm)
    (ha : out.experiments[i]? = some a) :
    outcomes_survival_rows eid out =
      (out.experiments.take i).flatMap
          (arm_rows eid out.study_metadata.comparator (find_comparator out)) ++
        arm_rows eid out.study_metadata.comparator (find_comparator out) a ++
        (out.experiments.drop (i + 1)).flatMap
          (arm_rows eid out.study_metadata.comparator (find_comparator out)) := by
  obtain ⟨hlt, hget⟩ := List.getElem?_eq_some_iff.mp ha
  conv_lhs =>
    rw [outcomes_survival_rows, ← List.take_append_drop i out.experiments,
      List.drop_eq_getElem_cons hlt, hget]
  rw [List.flatMap_append, List.flatMap_cons, List.append_assoc]

/-! ## Whitespace-splitting is unaffected by stripping -/

theorem splitWsAux_dropWhile (cs : List Char) :
    splitWsAux (cs.dropWhile isPyWs) [] = splitWsAux cs [] := by
  induction cs with
  | nil => rfl
  | cons c cs ih =>
    by_cases hc : isPyWs c = true
    · rw [List.dropWhile_cons_of_pos hc]
      rw [ih]
      show _ = splitWsAux (c :: cs) []
      simp [splitWsAux, hc]
    · rw [List.dropWhile_cons_of_neg hc]

theorem splitWsAux_all_ws (ws : List Char) (cur : List Char)
    (h : ∀ c ∈ ws, isPyWs c = true) : splitWsAux ws cur = splitWsAux [] cur := by
  induction ws generalizing cur with
  | nil => rfl
  | cons c ws ih =>
    have hc : isPyWs c = true := h c (by simp)
    have hrest : ∀ c ∈ ws, isPyWs c = true := fun d hd => h d (by simp [hd])
    cases cur with
    | nil =>
      show splitWsAux (c :: ws) [] = []
      simp only [splitWsAux, hc, if_true]
      rw [ih [] hrest]
      rfl
    | cons x xs =>
      show splitWsAux (c :: ws) (x :: xs) = [(x :: xs).reverse]
      simp only [splitWsAux, hc, if_true]
      rw [ih [] hrest]
      rfl

theorem splitWsAux_append_ws (cs ws : List Char) (h : ∀ c ∈ ws, isPyWs c = true) :
    ∀ cur, splitWsAux (cs ++ ws) cur = splitWsAux cs cur := by
  induction cs with
  | nil =>
    intro cur
    exact splitWsAux_all_ws ws cur h
  | cons c cs ih =>
    intro cur
    by_cases hc : isPyWs c = true
    · cases cur with
      | nil =>
        show splitWsAux (c :: (cs ++ ws)) [] = splitWsAux (c :: cs) []
        simp only [splitWsAux, hc, if_true]
        exact ih []
      | cons x xs =>
        show splitWsAux (c :: (cs ++ ws)) (x :: xs) = splitWsAux (c :: cs) (x :: xs)
        simp only [splitWsAux, hc, if_true]
        rw [ih []]
    · have hc' : isPyWs c = false := by simpa using hc
      show splitWsAux (c :: (cs ++ ws)) cur = splitWsAux (c :: cs) cur
      cases cur <;> simp only [splitWsAux, hc', Bool.false_eq_true, if_false] <;> exact ih _

theorem splitWsAux_strip (cs : List Char) :
    splitWsAux (pyStripList cs) [] = splitWsAux cs [] := by
  unfold pyStripList
  have hd :
      (((cs.dropWhile isPyWs).reverse.dropWhile isPyWs).reverse ++
          ((cs.dropWhile isPyWs).reverse.takeWhile isPyWs).reverse) =
        cs.dropWhile isPyWs := by
    rw [← List.reverse_append, List.takeWhile_append_dropWhile, List.reverse_reverse]
  have hws : ∀ c ∈ ((cs.dropWhile isPyWs).reverse.takeWhile isPyWs).reverse, isPyWs c = true := by
    intro c hcmem
    exact List.mem_takeWhile_imp (List.mem_reverse.mp hcmem)
  calc splitWsAux ((cs.dropWhile isPyWs).reverse.dropWhile isPyWs).reverse []
      = splitWsAux
          (((cs.dropWhile isPyWs).reverse.dropWhile isPyWs).reverse ++
            ((cs.dropWhile isPyWs).reverse.takeWhile isPyWs).reverse) [] := by
        rw [splitWsAux_append_ws _ _ hws]
    _ = splitWsAux (cs.dropWhile isPyWs) [] := by rw [hd]
    _ = splitWsAux cs [] := splitWsAux_dropWhile cs

theorem pySplitWs_strip (s : String) : pySplitWs (pyStrip s) = pySplitWs s := by
  unfold pySplitWs pyStrip
  show (splitWsAux (pyStripList s.data) []).map List.asString = _
  rw [splitWsAux_strip]

/-- `outcome_row` reads the arm only through its name. -/
theorem outcome_row_arm_name_eq (eid : Nat) (cname : Option String)
    (carm : Option ExperimentArm) (a1 a2 : ExperimentArm) (ep : String) (m : OutcomeMetric)
    (h : a1.arm_name = a2.arm_name) :
    outcome_row eid cname carm a1 ep m = outcome_row eid cname carm a2 ep m := by
  simp [outcome_row, h]

/-! ## Unparsable-value skip (C5) -/

/-- C5: outcome medians are parsed by casting the first whitespace-delimited
token of the value string; for an arm and endpoint whose value is null or
whose first token is not numeric the parse yields null and no
`outcomes_survival` row is emitted for that (arm, endpoint), while the rows
of the other endpoints and of the other arms are unaffected: replacing that
single value by one that parses adds exactly the one missing row, in place,
and changes nothing else. -/
theorem c5_unparsable_value_skip :
    (∀ s : String, parse_numeric_value (some s) = ((pySplitWs s).head?).bind pyFloat?) ∧
    parse_numeric_value none = none ∧
    (∀ (eid : Nat) (out : ExtractionOutput) (i : Nat) (ep : String) (a : ExperimentArm),
      out.experiments[i]? = some a →
      (ep = "OS" ∨ ep = "PFS" ∨ ep = "TTP") →
      (a.arm_name == out.study_metadata.comparator) = false →
      parse_numeric_value (epValue a ep) = none →
      ∀ v : Option String,
        outcomes_survival_rows eid out =
          (out.experiments.take i).flatMap
              (arm_rows eid out.study_metadata.comparator (find_comparator out)) ++
            ((results_map_before a.results ep).filterMap
                (fun p =>
                  outcome_row eid out.study_metadata.comparator (find_comparator out) a p.1
                    p.2) ++
              ((results_map_after a.results ep).filterMap
                  (fun p =>
                    outcome_row eid out.study_metadata.comparator (find_comparator out) a p.1
                      p.2) ++
                (out.experiments.drop (i + 1)).flatMap
                  (arm_rows eid out.study_metadata.comparator (find_comparator out)))) ∧
        outcomes_survival_rows eid (setArmEpValue out i ep v) =
          (out.experiments.take i).flatMap
              (arm_rows eid out.study_metadata.comparator (find_comparator out)) ++
            ((results_map_before a.results ep).filterMap
                (fun p =>
                  outcome_row eid out.study_metadata.comparator (find_comparator out) a p.1
                    p.2) ++
              ((outcome_row eid out.study_metadata.comparator (find_comparator out) a ep
                    (updateMetricValue (epMetric a ep) v)).toList ++
                ((results_map_after a.results ep).filterMap
                    (fun p =>
                      outcome_row eid out.study_metadata.comparator (find_comparator out) a p.1
                        p.2) ++
                  (out.experiments.drop (i + 1)).flatMap
                    (arm_rows eid out.study_metadata.comparator (find_comparator out))))) ∧
        (∀ w : PyFloat, parse_numeric_value v = some w →
          outcome_row eid out.study_metadata.comparator (find_comparator out) a ep
              (updateMetricValue (epMetric a ep) v) =
            some
              { extraction_id := eid
                endpoint := ep
                group_a := pyOrStr a.arm_name "N/A"
                group_b := out.study_metadata.comparator
                median_a_months := w
                median_b_months :=
                  ((find_comparator out).bind (fun ca => comparator_metric ca ep)).bind
                    (fun mb => parse_numeric_value mb.value)
                p_value := parse_p_value (epMetric a ep).p_value
                hr := (epMetric a ep).hr
                hr_ci_low := (parse_ci_value (epMetric a ep).hr_ci).1
                hr_ci_high := (parse_ci_value (epMetric a ep).hr_ci).2
                evidence_section := (epMetric a ep).evidence_section
                evidence_page := (epMetric a ep).evidence_page
                table_figure := (epMetric a ep).table_figure
                verbatim_excerpt := (epMetric a ep).verbatim_excerpt })) := by
  refine ⟨?_, rfl, ?_⟩
  · intro s
    by_cases hs : s = ""
    · subst hs; rfl
    · have hs' : (s == "") = false := by simpa using hs
      simp only [parse_numeric_value, hs', Bool.false_eq_true, if_false]
      rw [pySplitWs_strip]
      cases h : (pySplitWs s).head? with
      | none => rfl
      | some tok => rfl
  · intro eid out i ep a ha hep hskip hnone v
    have hlt : i < out.experiments.length := (List.getElem?_eq_some_iff.mp ha).1
    have harm : ∀ (ep' : String) (m' : OutcomeMetric),
        outcome_row eid out.study_metadata.comparator (find_comparator out)
            (updateArmEp a ep v) ep' m' =
          outcome_row eid out.study_metadata.comparator (find_comparator out) a ep' m' :=
      fun ep' m' =>
        outcome_row_arm_name_eq _ _ _ _ _ _ _ (updateArmEp_arm_name a ep v)
    refine ⟨?_, ?_, ?_⟩
    · rw [outcomes_rows_split eid out i a ha,
        arm_rows_decomp eid _ _ a ep hep hskip,
        outcome_row_none _ _ _ _ _ _ hnone]
      simp [List.append_assoc]
    · have hexp' : (setArmEpValue out i ep v).experiments =
          out.experiments.set i (updateArmEp a ep v) := by
        unfold setArmEpValue; rw [ha]
      have hmeta' : (setArmEpValue out i ep v).study_metadata = out.study_metadata := by
        unfold setArmEpValue; rw [ha]
      have hcomp' := find_comparator_setArmEp out i ep v a ha hskip
      have ha' : (setArmEpValue out i ep v).experiments[i]? = some (updateArmEp a ep v) := by
        rw [hexp']; exact List.getElem?_set_self hlt
      rw [outcomes_rows_split eid _ i (updateArmEp a ep v) ha', hmeta', hcomp', hexp',
        take_set_self, List.drop_set]
      rw [arm_rows_decomp eid _ _ (updateArmEp a ep v) ep hep
        (by rw [updateArmEp_arm_name]; exact hskip)]
      rw [results_map_before_update a ep v hep, results_map_after_update a ep v hep,
        epMetric_update a ep v hep]
      simp only [harm]
      simp [List.append_assoc, Nat.lt_succ_self]
    · intro w hw
      have hval : parse_numeric_value (updateMetricValue (epMetric a ep) v).value = some w := hw
      rw [outcome_row_some _ _ _ _ _ _ _ hval]
      rfl

theorem c5_unparsable_value_skip_witness :
    outcomes_survival_rows 5 noComparatorOut =
      (noComparatorOut.experiments.take 0).flatMap
          (arm_rows 5 noComparatorOut.study_metadata.comparator
            (find_comparator noComparatorOut)) ++
        ((results_map_before lenvArm.results "PFS").filterMap
            (fun p =>
              outcome_row 5 noComparatorOut.study_metadata.comparator
                (find_comparator noComparatorOut) lenvArm p.1 p.2) ++
          ((results_map_after lenvArm.results "PFS").filterMap
              (fun p =>
                outcome_row 5 noComparatorOut.study_metadata.comparator
                  (find_comparator noComparatorOut) lenvArm p.1 p.2) ++
            (noComparatorOut.experiments.drop 1).flatMap
              (arm_rows 5 noComparatorOut.study_metadata.comparator
                (find_comparator noComparatorOut)))) :=
  (c5_unparsable_value_skip.2.2 5 noComparatorOut 0 "PFS" lenvArm rfl (Or.inr (Or.inl rfl))
    (by decide) (by decide) none).1

/-! ## Further row-shape helper lemmas -/

theorem outcome_row_endpoint (eid : Nat) (cname : Option String)
    (carm : Option ExperimentArm) (a : ExperimentArm) (ep : String) (m : OutcomeMetric)
    (r : OutcomeRow) (h : outcome_row eid cname carm a ep m = some r) : r.endpoint = ep := by
  cases hp : parse_numeric_value m.value with
  | none => rw [outcome_row_none _ _ _ _ _ _ hp] at h; cases h
  | some w =>
    rw [outcome_row_some _ _ _ _ _ _ _ hp] at h
    cases h
    rfl

theorem outcome_row_group_b (eid : Nat) (cname : Option String)
    (carm : Option ExperimentArm) (a : ExperimentArm) (ep : String) (m : OutcomeMetric)
    (r : OutcomeRow) (h : outcome_row eid cname carm a ep m = some r) : r.group_b = cname := by
  cases hp : parse_numeric_value m.value with
  | none => rw [outcome_row_none _ _ _ _ _ _ hp] at h; cases h
  | some w =>
    rw [outcome_row_some _ _ _ _ _ _ _ hp] at h
    cases h
    rfl

theorem outcome_row_eq_none_iff (eid : Nat) (cname : Option String)
    (carm : Option ExperimentArm) (a : ExperimentArm) (ep : String) (m : OutcomeMetric) :
    outcome_row eid cname carm a ep m = none ↔ parse_numeric_value m.value = none := by
  cases hp : parse_numeric_value m.value with
  | none => simp [outcome_row_none _ _ _ _ _ _ hp]
  | some w => simp [outcome_row_some _ _ _ _ _ _ _ hp]

theorem filter_endpoint_other (eid : Nat) (cname : Option String)
    (carm : Option ExperimentArm) (a : ExperimentArm) (ep2 : String) (m : OutcomeMetric)
    (ep : String) (hne : (ep2 == ep) = false) :
    ((outcome_row eid cname carm a ep2 m).toList).filter (fun r => r.endpoint == ep) = [] := by
  cases h : outcome_row eid cname carm a ep2 m with
  | none => rfl
  | some r =>
    have hr : r.endpoint = ep2 := outcome_row_endpoint _ _ _ _ _ _ _ h
    simp [Option.toList, List.filter, hr, hne]

/-! ## Missing-comparator behaviour (C4) -/

/-- C4 counterexample: a comparator-less single-arm study still emits an
`outcomes_survival` row (the claim says none should be emitted). -/
theorem c4_counterexample :
    noComparatorOut.study_metadata.comparator = none ∧
    (outcomes_survival_rows 0 noComparatorOut).length = 1 := by
  exact ⟨rfl, by decide⟩

/-- C4 (amended): with a null comparator, rows are still derived — one per
arm with a non-null name and endpoint with parsable value — but every such
row has null `group_b` and null `median_b_months`, and arms whose `arm_name`
is null are skipped; in particular the table is empty exactly when every arm
is unnamed or has no parsable endpoint value. -/
theorem c4_no_comparator_rows (eid : Nat) (out : ExtractionOutput)
    (h : out.study_metadata.comparator = none) :
    (∀ r ∈ outcomes_survival_rows eid out, r.group_b = none ∧ r.median_b_months = none) ∧
    (∀ a ∈ out.experiments, a.arm_name = none →
      arm_rows eid out.study_metadata.comparator (find_comparator out) a = []) ∧
    (outcomes_survival_rows eid out = [] ↔
      ∀ a ∈ out.experiments, a.arm_name = none ∨
        ∀ pr ∈ results_map a.results, parse_numeric_value pr.2.value = none) := by
  have hfc : find_comparator out = none := by unfold find_comparator; rw [h]
  refine ⟨?_, ?_, ?_⟩
  · intro r hr
    unfold outcomes_survival_rows at hr
    rw [h, hfc] at hr
    obtain ⟨a, _, hmem⟩ := List.mem_flatMap.mp hr
    unfold arm_rows at hmem
    by_cases hn : (a.arm_name == (none : Option String)) = true
    · rw [if_pos hn] at hmem; cases hmem
    · rw [if_neg hn] at hmem
      obtain ⟨pr, _, heq⟩ := List.mem_filterMap.mp hmem
      cases hp : parse_numeric_value pr.2.value with
      | none => rw [outcome_row_none _ _ _ _ _ _ hp] at heq; cases heq
      | some w =>
        rw [outcome_row_some _ _ _ _ _ _ _ hp] at heq
        cases heq
        exact ⟨rfl, rfl⟩
  · intro a _ hname
    rw [h]
    simp [arm_rows, hname]
  · unfold outcomes_survival_rows
    rw [h, hfc, List.flatMap_eq_nil_iff]
    constructor
    · intro hall a ha
      have := hall a ha
      unfold arm_rows at this
      by_cases hn : (a.arm_name == (none : Option String)) = true
      · exact Or.inl (by simpa using hn)
      · rw [if_neg hn] at this
        exact Or.inr (fun pr hpr =>
          (outcome_row_eq_none_iff _ _ _ _ _ _).mp
            (List.filterMap_eq_nil_iff.mp this pr hpr))
    · intro hall a ha
      rcases hall a ha with hname | hvals
      · simp [arm_rows, hname]
      · unfold arm_rows
        by_cases hn : (a.arm_name == (none : Option String)) = true

        · rw [if_pos hn]
        · rw [if_neg hn]
          exact List.filterMap_eq_nil_iff.mpr (fun pr hpr =>
            (outcome_row_eq_none_iff _ _ _ _ _ _).mpr (hvals pr hpr))

theorem c4_no_comparator_rows_witness : outcomes_survival_rows 3 noArmsOut = [] :=
  (c4_no_comparator_rows 3 noArmsOut rfl).2.2.mpr (by simp [noArmsOut])

/-! ## Comparative outcome derivation (C1) -/

/-- C1 counterexample: with `comparator = ""` naming an existing arm whose
`arm_name` is `""`, the non-comparator arm's row is emitted with a null
`median_b_months` even though the comparator arm's OS median parses — the
truthiness guard skips comparator-arm resolution for a falsy name, so the
claimed pairing fails. -/
theorem c1_counterexample :
    emptyComparatorOut.study_metadata.comparator = some "" ∧
    (emptyComparatorOut.experiments.map (fun a => a.arm_name)).head? = some (some "") ∧
    parse_numeric_value soraMetric.value = some (.finite 123 (-1)) ∧
    (outcomes_survival_rows 0 emptyComparatorOut).map
        (fun r => (r.group_a, r.endpoint, r.median_b_months)) =
      [("Lenvatinib", "OS", none)] := by
  refine ⟨rfl, rfl, by decide, by decide⟩

/-- A non-comparator arm's rows, filtered to one endpoint whose own median
parses, are exactly the one comparative row for that endpoint. -/
theorem arm_rows_filter_endpoint (eid : Nat) (cname : Option String)
    (carm : Option ExperimentArm) (a : ExperimentArm) (ep : String) (w : PyFloat)
    (hep : ep = "OS" ∨ ep = "PFS" ∨ ep = "TTP")
    (hskip : (a.arm_name == cname) = false)
    (hw : parse_numeric_value (epMetric a ep).value = some w) :
    (arm_rows eid cname carm a).filter (fun r => r.endpoint == ep) =
      [{ extraction_id := eid
         endpoint := ep
         group_a := pyOrStr a.arm_name "N/A"
         group_b := cname
         median_a_months := w
         median_b_months :=
           (carm.bind (fun ca => comparator_metric ca ep)).bind
             (fun mb => parse_numeric_value mb.value)
         p_value := parse_p_value (epMetric a ep).p_value
         hr := (epMetric a ep).hr
         hr_ci_low := (parse_ci_value (epMetric a ep).hr_ci).1
         hr_ci_high := (parse_ci_value (epMetric a ep).hr_ci).2
         evidence_section := (epMetric a ep).evidence_section
         evidence_page := (epMetric a ep).evidence_page
         table_figure := (epMetric a ep).table_figure
         verbatim_excerpt := (epMetric a ep).verbatim_excerpt }] := by
  rw [arm_rows_decomp eid cname carm a ep hep hskip,
    outcome_row_some eid cname carm a ep (epMetric a ep) w hw]
  rcases hep with h | h | h <;> subst h
  · rw [show results_map_before a.results "OS" = [] from rfl,
      show results_map_after a.results "OS" =
        [("PFS", a.results.pfs), ("TTP", a.results.ttp)] from rfl,
      filterMap_pair]
    simp only [List.filterMap_nil, List.filter_append, List.filter_nil]
    rw [filter_endpoint_other eid cname carm a "PFS" a.results.pfs "OS" (by decide),
      filter_endpoint_other eid cname carm a "TTP" a.results.ttp "OS" (by decide)]
    simp [List.filter]
  · rw [show results_map_before a.results "PFS" = [("OS", a.results.os)] from rfl,
      show results_map_after a.results "PFS" = [("TTP", a.results.ttp)] from rfl,
      filterMap_single, filterMap_single]
    simp only [List.filter_append]
    rw [filter_endpoint_other eid cname carm a "OS" a.results.os "PFS" (by decide),
      filter_endpoint_other eid cname carm a "TTP" a.results.ttp "PFS" (by decide)]
    simp [List.filter]
  · rw [show results_map_before a.results "TTP" =
        [("OS", a.results.os), ("PFS", a.results.pfs)] from rfl,
      show results_map_after a.results "TTP" = [] from rfl,
      filterMap_pair]
    simp only [List.filterMap_nil, List.filter_append, List.filter_nil]
    rw [filter_endpoint_other eid cname carm a "OS" a.results.os "TTP" (by decide),
      filter_endpoint_other eid cname carm a "PFS" a.results.pfs "TTP" (by decide)]
    simp [List.filter]

/-- C1 (amended): for a non-empty comparator naming an existing arm, the
first arm carrying that name resolves as the comparator; the emitted rows are
the concatenation of the non-comparator arms' contributions; every row has
`group_b` equal to the comparator name; an arm named like the comparator
contributes nothing; and a non-comparator arm contributes, per endpoint whose
own median parses, exactly one row pairing it against the comparator arm's
same-endpoint parsed median, with `group_a` the arm's name when truthy and
`"N/A"` otherwise. -/
theorem c1_comparative_derivation (eid : Nat) (out : ExtractionOutput) (c : String)
    (hc : out.study_metadata.comparator = some c) (hne : c ≠ "")
    (hex : ∃ a, a ∈ out.experiments ∧ a.arm_name = some c) :
    ((find_comparator out).isSome = true ∧
      ∀ ca, find_comparator out = some ca → ca ∈ out.experiments ∧ ca.arm_name = some c) ∧
    outcomes_survival_rows eid out =
      out.experiments.flatMap (arm_rows eid (some c) (find_comparator out)) ∧
    (∀ r ∈ outcomes_survival_rows eid out, r.group_b = some c) ∧
    (∀ a ∈ out.experiments, a.arm_name = some c →
      arm_rows eid (some c) (find_comparator out) a = []) ∧
    (∀ a ∈ out.experiments, a.arm_name ≠ some c →
      ∀ ep m w, (ep, m) ∈ results_map a.results →
        parse_numeric_value m.value = some w →
        (arm_rows eid (some c) (find_comparator out) a).filter
            (fun r => r.endpoint == ep) =
          [{ extraction_id := eid
             endpoint := ep
             group_a := pyOrStr a.arm_name "N/A"
             group_b := some c
             median_a_months := w
             median_b_months :=
               ((find_comparator out).bind (fun ca => comparator_metric ca ep)).bind
                 (fun mb => parse_numeric_value mb.value)
             p_value := parse_p_value m.p_value
             hr := m.hr
             hr_ci_low := (parse_ci_value m.hr_ci).1
             hr_ci_high := (parse_ci_value m.hr_ci).2
             evidence_section := m.evidence_section
             evidence_page := m.evidence_page
             table_figure := m.table_figure
             verbatim_excerpt := m.verbatim_excerpt }]) := by
  have hcf : (c == "") = false := by simpa using hne
  have hfc : find_comparator out =
      out.experiments.find? (fun a => a.arm_name == some c) := by
    unfold find_comparator
    rw [hc]
    simp [hcf]
  refine ⟨⟨?_, ?_⟩, ?_, ?_, ?_, ?_⟩
  · rw [hfc]
    apply List.find?_isSome.mpr
    obtain ⟨a, ha, hname⟩ := hex
    exact ⟨a, ha, by simp [hname]⟩
  · intro ca hca
    rw [hfc] at hca
    refine ⟨List.mem_of_find?_eq_some hca, ?_⟩
    have := List.find?_some hca
    simpa using this
  · unfold outcomes_survival_rows
    rw [hc]
  · intro r hr
    unfold outcomes_survival_rows at hr
    rw [hc] at hr
    obtain ⟨a, _, hmem⟩ := List.mem_flatMap.mp hr
    unfold arm_rows at hmem
    by_cases hn : (a.arm_name == some c) = true
    · rw [if_pos hn] at hmem; cases hmem
    · rw [if_neg hn] at hmem
      obtain ⟨pr, _, heq⟩ := List.mem_filterMap.mp hmem
      exact outcome_row_group_b _ _ _ _ _ _ _ heq
  · intro a _ hname
    simp [arm_rows, hname]
  · intro a _ hname ep m w hmem hw
    have hskip : (a.arm_name == some c) = false := by simpa using hname
    simp only [results_map, List.mem_cons, List.mem_singleton, List.not_mem_nil,
      or_false] at hmem
    rcases hmem with h1 | h1 | h1 <;> rw [Prod.ext_iff] at h1 <;>
        obtain ⟨hep, hm⟩ := h1 <;> subst hep <;> subst hm
    · exact arm_rows_filter_endpoint eid (some c) (find_comparator out) a "OS" w
        (Or.inl rfl) hskip hw
    · exact arm_rows_filter_endpoint eid (some c) (find_comparator out) a "PFS" w
        (Or.inr (Or.inl rfl)) hskip hw
    · exact arm_rows_filter_endpoint eid (some c) (find_comparator out) a "TTP" w
        (Or.inr (Or.inr rfl)) hskip hw

theorem c1_comparative_derivation_witness :
    (arm_rows 1 (some "Sorafenib") (find_comparator reflectOut) lenvArm).filter
        (fun r => r.endpoint == "OS") =
      [{ extraction_id := 1
         endpoint := "OS"
         group_a := "Lenvatinib"
         group_b := some "Sorafenib"
         median_a_months := .finite 136 (-1)
         median_b_months := some (.finite 123 (-1))
         p_value := none
         hr := none
         hr_ci_low := none
         hr_ci_high := none
         evidence_section := none
         evidence_page := none
         table_figure := none
         verbatim_excerpt := none }] ∧
    pyToRat (.finite 136 (-1)) = some (13.6 : ℚ) ∧
    pyToRat (.finite 123 (-1)) = some (12.3 : ℚ) := by
  refine ⟨?_, ?_, ?_⟩
  · exact (c1_comparative_derivation 1 reflectOut "Sorafenib" rfl (by decide)
      ⟨soraArm, List.mem_cons_of_mem _ (List.mem_cons_self _ _), rfl⟩).2.2.2.2 lenvArm
      (List.mem_cons_self _ _) (by decide) "OS" lenvMetric (.finite 136 (-1))
      (List.mem_cons_self _ _) (by decide)
  · show some ((136 : ℚ) * (10 : ℚ) ^ (-1 : ℤ)) = some (13.6 : ℚ)
    norm_num
  · show some ((123 : ℚ) * (10 : ℚ) ^ (-1 : ℤ)) = some (12.3 : ℚ)
    norm_num

/-! ## Persistence-layer helper lemmas -/

theorem noFail_article (a : ArticleRow) : noFail.articleFails a = false := rfl

theorem noFail_extraction (er : ExtractionRow) : noFail.extractionFails er = false := rfl

theorem noFail_span (sp : EvidenceSpan) : noFail.spanFails sp = false := rfl

theorem noFail_outcome (r : OutcomeRow) : noFail.outcomeFails r = false := rfl

theorem insert_spans_noFail (eid : Nat) (sps : List EvidenceSpan) :
    insert_spans noFail eid sps = .ok (sps.map (span_row eid)) := by
  induction sps with
  | nil => rfl
  | cons sp rest ih => simp [insert_spans, noFail_span, ih]

theorem insert_outcomes_noFail (rows : List OutcomeRow) :
    insert_outcomes noFail rows = .ok rows := by
  induction rows with
  | nil => rfl
  | cons r rest ih => simp [insert_outcomes, noFail_outcome, ih]

theorem insert_spans_fails (fail : FailureOracle) (eid : Nat) (sps : List EvidenceSpan)
    (h : ∃ sp ∈ sps, fail.spanFails sp = true) :
    ∃ e, insert_spans fail eid sps = .error e := by
  induction sps with
  | nil => simp at h
  | cons sp rest ih =>
    by_cases hf : fail.spanFails sp = true
    · exact ⟨.rowInsertFailed, by simp [insert_spans, hf]⟩
    · obtain ⟨sp2, hsp2, hfa⟩ := h
      rcases List.mem_cons.mp hsp2 with rfl | hm
      · exact absurd hfa hf
      · obtain ⟨e, he⟩ := ih ⟨sp2, hm, hfa⟩
        have hf' : fail.spanFails sp = false := by simpa using hf
        exact ⟨e, by simp [insert_spans, hf', he]⟩

theorem article_phase_error (fail : FailureOracle) (db : Store) (meta : StudyMetadata)
    (ty pp : String) (e : DbExc) (h : find_article db meta = .error e) :
    article_phase fail db meta ty pp = .error e := by
  unfold article_phase
  rw [h]

theorem article_phase_noFail_none (db : Store) (meta : StudyMetadata) (ty pp : String)
    (h : find_article db meta = .ok none) :
    article_phase noFail db meta ty pp =
      .ok ({ db with
              nextId := db.nextId + 1
              articles := db.articles ++ [new_article db.nextId meta ty pp] },
           db.nextId) := by
  unfold article_phase
  rw [h]
  simp [noFail_article, new_article]

theorem article_phase_found (fail : FailureOracle) (db : Store) (meta : StudyMetadata)
    (ty pp : String) (aid : Nat) (h : find_article db meta = .ok (some aid)) :
    article_phase fail db meta ty pp =
      .ok ({ db with
              articles := db.articles.map
                (fun a => if a.id == aid then updated_article meta a else a) },
           aid) := by
  unfold article_phase
  rw [h]

/-- With no injected failures and no matching article, `insert_extraction`
creates one article, one extraction, the span rows and the outcome rows. -/
theorem insert_extraction_noFail_new (db : Store) (out : ExtractionOutput)
    (pp ty sv bv : String) (h : find_article db out.study_metadata = .ok none) :
    insert_extraction noFail db out pp ty sv bv =
      .ok
        ({ nextId := db.nextId + 2
           articles := db.articles ++ [new_article db.nextId out.study_metadata ty pp]
           extractions :=
             db.extractions ++
               [{ id := db.nextId + 1
                  article_id := db.nextId
                  schema_version := sv
                  extractor_bundle_version := bv
                  payload := out }]
           evidence_spans :=
             db.evidence_spans ++ out.evidence_spans.map (span_row (db.nextId + 1))
           outcomes := db.outcomes ++ outcomes_survival_rows (db.nextId + 1) out },
         db.nextId + 1) := by
  unfold insert_extraction
  rw [article_phase_noFail_none db out.study_metadata ty pp h]
  simp [noFail_extraction, insert_spans_noFail, insert_outcomes_noFail, extraction_row]

/-- With no injected failures and a uniquely matched article, the article is
updated in place and one extraction is archived. -/
theorem insert_extraction_noFail_found (db : Store) (out : ExtractionOutput)
    (pp ty sv bv : String) (aid : Nat)
    (h : find_article db out.study_metadata = .ok (some aid)) :
    insert_extraction noFail db out pp ty sv bv =
      .ok
        ({ nextId := db.nextId + 1
           articles :=
             db.articles.map
               (fun a => if a.id == aid then updated_article out.study_metadata a else a)
           extractions :=
             db.extractions ++
               [{ id := db.nextId
                  article_id := aid
                  schema_version := sv
                  extractor_bundle_version := bv
                  payload := out }]
           evidence_spans :=
             db.evidence_spans ++ out.evidence_spans.map (span_row db.nextId)
           outcomes := db.outcomes ++ outcomes_survival_rows db.nextId out },
         db.nextId) := by
  unfold insert_extraction
  rw [article_phase_found noFail db out.study_metadata ty pp aid h]
  simp [noFail_extraction, insert_spans_noFail, insert_outcomes_noFail, extraction_row]

/-! ## Ambiguous identity lookup (C10) -/

/-- C10: when the pmid/doi lookup matches two or more stored articles,
`insert_extraction` raises `MultipleResultsFound` rather than picking one,
and the observable store is unchanged (rollback). -/
theorem c10_ambiguous_lookup (fail : FailureOracle) (db : Store) (out : ExtractionOutput)
    (pp ty sv bv : String)
    (h : 2 ≤ (db.articles.filter (article_match out.study_metadata)).length) :
    insert_extraction fail db out pp ty sv bv = .error .multipleResultsFound ∧
    run_insert fail db out pp ty sv bv = db := by
  have hfa : find_article db out.study_metadata = .error .multipleResultsFound := by
    have htr :
        (pyTruthyStr out.study_metadata.pmid || pyTruthyStr out.study_metadata.doi) = true := by
      rcases hfl : db.articles.filter (article_match out.study_metadata) with _ | ⟨a, t⟩
      · rw [hfl] at h; simp at h
      · have ham : article_match out.study_metadata a = true :=
          List.of_mem_filter (hfl ▸ List.mem_cons_self a t)
        unfold article_match at ham
        have ham2 :
            (pyTruthyStr out.study_metadata.pmid = true ∧
                (a.pmid == out.study_metadata.pmid) = true) ∨
              (pyTruthyStr out.study_metadata.doi = true ∧
                (a.doi == out.study_metadata.doi) = true) := by
          simpa using ham
        rcases ham2 with ⟨h1, _⟩ | ⟨h1, _⟩ <;> simp [h1]
    unfold find_article
    rw [htr]
    rcases hfl : db.articles.filter (article_match out.study_metadata) with _ | ⟨x, _ | ⟨y, t⟩⟩
    · rw [hfl] at h; simp at h
    · rw [hfl] at h; simp at h
    · simp
  have hmain : insert_extraction fail db out pp ty sv bv = .error .multipleResultsFound := by
    unfold insert_extraction
    rw [article_phase_error fail db out.study_metadata ty pp _ hfa]
  exact ⟨hmain, by unfold run_insert; rw [hmain]⟩

theorem c10_ambiguous_lookup_witness :
    insert_extraction noFail dupStore crossOut "s3://x.pdf" "trial" "1.0" "0.1.0" =
        .error .multipleResultsFound ∧
    run_insert noFail dupStore crossOut "s3://x.pdf" "trial" "1.0" "0.1.0" = dupStore :=
  c10_ambiguous_lookup noFail dupStore crossOut "s3://x.pdf" "trial" "1.0" "0.1.0" (by decide)

/-! ## Transactional atomicity (C3) -/

theorem insert_extraction_span_fail_not_ok (fail : FailureOracle) (db : Store)
    (out : ExtractionOutput) (pp ty sv bv : String)
    (h : ∃ sp ∈ out.evidence_spans, fail.spanFails sp = true) (r : Store × Nat)
    (hr : insert_extraction fail db out pp ty sv bv = .ok r) : False := by
  unfold insert_extraction at hr
  cases hap : article_phase fail db out.study_metadata ty pp with
  | error e => rw [hap] at hr; cases hr
  | ok q =>
    obtain ⟨db1, aid⟩ := q
    rw [hap] at hr
    by_cases hef : fail.extractionFails (extraction_row db1 aid sv bv out) = true
    · simp only [hef, if_true] at hr
      cases hr
    · have hef' : fail.extractionFails (extraction_row db1 aid sv bv out) = false := by
        simpa using hef
      obtain ⟨e, he⟩ :=
        insert_spans_fails fail (extraction_row db1 aid sv bv out).id out.evidence_spans h
      simp only [hef', Bool.false_eq_true, if_false, he] at hr
      exact Except.noConfusion hr

/-- C3: if any row-level insert inside `insert_extraction` fails (here: an
evidence-span insert), the error is re-raised to the caller and the
observable store after the session scope closes is the original one — no row
from the run is visible. -/
theorem c3_transactional_atomicity (fail : FailureOracle) (db : Store)
    (out : ExtractionOutput) (pp ty sv bv : String)
    (h : ∃ sp ∈ out.evidence_spans, fail.spanFails sp = true) :
    (∃ e, insert_extraction fail db out pp ty sv bv = .error e) ∧
    run_insert fail db out pp ty sv bv = db := by
  cases hres : insert_extraction fail db out pp ty sv bv with
  | ok r => exact (insert_extraction_span_fail_not_ok fail db out pp ty sv bv h r hres).elim
  | error e =>
    refine ⟨⟨e, rfl⟩, ?_⟩
    unfold run_insert
    rw [hres]

theorem c3_transactional_atomicity_witness :
    run_insert failSpans emptyStore spanOut "s3://p.pdf" "trial" "1.0" "0.1.0" = emptyStore :=
  (c3_transactional_atomicity failSpans emptyStore spanOut "s3://p.pdf" "trial" "1.0" "0.1.0"
    ⟨{ field_path := "study_metadata.title", value_json := "null" },
     List.mem_cons_self _ _, rfl⟩).2

/-! ## Article identity resolution (C2) -/

/-- C2 counterexample: an extraction whose `pmid` is the empty string — a
non-null pmid — is looked up by truthiness, so the lookup is skipped and two
runs create two article rows where the claim promises exactly one. -/
theorem c2_counterexample :
    blankPmidOut.study_metadata.pmid = some "" ∧
    blankPmidOut.study_metadata.pmid ≠ none ∧
    (run_insert noFail
        (run_insert noFail emptyStore blankPmidOut "a.pdf" "trial" "1.0" "0.1.0")
        blankPmidOut "a.pdf" "trial" "1.0" "0.1.0").articles.length = 2 := by
  refine ⟨rfl, by decide, by decide⟩

/-- C2 (amended): identity resolution is keyed on truthy (non-null and
non-empty) pmid/doi.  Two inserts carrying the same non-empty `pmid`, from an
empty store, leave exactly one articles row and two extractions rows; an
insert whose `pmid` and `doi` are both falsy skips the lookup and always
appends a fresh articles row, whatever the store already contains. -/
theorem c2_identity_resolution :
    (∀ (o1 o2 : ExtractionOutput) (p pp1 ty1 sv1 bv1 pp2 ty2 sv2 bv2 : String),
      p ≠ "" → o1.study_metadata.pmid = some p → o2.study_metadata.pmid = some p →
      ∃ db1 e1 db2 e2,
        insert_extraction noFail emptyStore o1 pp1 ty1 sv1 bv1 = .ok (db1, e1) ∧
        insert_extraction noFail db1 o2 pp2 ty2 sv2 bv2 = .ok (db2, e2) ∧
        db2.articles.length = 1 ∧ db2.extractions.length = 2) ∧
    (∀ (db : Store) (out : ExtractionOutput) (pp ty sv bv : String),
      pyTruthyStr out.study_metadata.pmid = false →
      pyTruthyStr out.study_metadata.doi = false →
      ∃ db2 e,
        insert_extraction noFail db out pp ty sv bv = .ok (db2, e) ∧
        db2.articles = db.articles ++ [new_article db.nextId out.study_metadata ty pp] ∧
        db2.extractions.length = db.extractions.length + 1) := by
  constructor
  · intro o1 o2 p pp1 ty1 sv1 bv1 pp2 ty2 sv2 bv2 hp h1 h2
    have hpt : pyTruthyStr (some p) = true := by simp [pyTruthyStr, hp]
    have hfind1 : find_article emptyStore o1.study_metadata = .ok none := by
      unfold find_article
      cases hcond :
          (pyTruthyStr o1.study_metadata.pmid || pyTruthyStr o1.study_metadata.doi) <;>
        simp [hcond, emptyStore]
    have hstep1 := insert_extraction_noFail_new emptyStore o1 pp1 ty1 sv1 bv1 hfind1
    set a0 := new_article emptyStore.nextId o1.study_metadata ty1 pp1 with ha0
    set db1 : Store :=
      { emptyStore with
          nextId := emptyStore.nextId + 2
          articles := emptyStore.articles ++ [a0]
          extractions :=
            emptyStore.extractions ++
              [{ id := emptyStore.nextId + 1
                 article_id := emptyStore.nextId
                 schema_version := sv1
                 extractor_bundle_version := bv1
                 payload := o1 }]
          evidence_spans :=
            emptyStore.evidence_spans ++ o1.evidence_spans.map (span_row (emptyStore.nextId + 1))
          outcomes :=
            emptyStore.outcomes ++ outcomes_survival_rows (emptyStore.nextId + 1) o1 }
      with hdb1
    have hmatch : article_match o2.study_metadata a0 = true := by
      unfold article_match
      rw [h2, ha0]
      unfold new_article
      rw [h1]
      simp [hpt]
    have hfind2 : find_article db1 o2.study_metadata = .ok (some a0.id) := by
      unfold find_article
      rw [h2, hpt]
      have hfl : db1.articles.filter (article_match o2.study_metadata) = [a0] := by
        rw [hdb1]
        show ((emptyStore.articles ++ [a0]).filter (article_match o2.study_metadata)) = [a0]
        simp [emptyStore, List.filter, hmatch]
      rw [hfl]
      simp
    have hstep2 := insert_extraction_noFail_found db1 o2 pp2 ty2 sv2 bv2 a0.id hfind2
    refine ⟨db1, emptyStore.nextId + 1, _, db1.nextId, hstep1, hstep2, ?_, ?_⟩
    · simp [hdb1, emptyStore]
    · simp [hdb1, emptyStore]
  · intro db out pp ty sv bv hpm hdoi
    have hfind : find_article db out.study_metadata = .ok none := by
      unfold find_article
      rw [hpm, hdoi]
      simp
    have hstep := insert_extraction_noFail_new db out pp ty sv bv hfind
    exact ⟨_, db.nextId + 1, hstep, rfl, by simp⟩

theorem c2_identity_resolution_witness :
    ∃ db1 e1 db2 e2,
      insert_extraction noFail emptyStore spanOut "a.pdf" "trial" "1.0" "0.1.0" =
          .ok (db1, e1) ∧
        insert_extraction noFail db1 spanOut "b.pdf" "trial" "1.0" "0.1.0" = .ok (db2, e2) ∧
        db2.articles.length = 1 ∧ db2.extractions.length = 2 :=
  c2_identity_resolution.1 spanOut spanOut "123" "a.pdf" "trial" "1.0" "0.1.0" "b.pdf" "trial"
    "1.0" "0.1.0" (by decide) rfl rfl

/-! ## Validation helper lemmas -/

theorem keysOk_nodup {fs : List (String × JValue)} {declared : List String}
    (h : keysOk fs declared = true) : nodupStr (keysOf fs) = true :=
  (Bool.and_eq_true .. ▸ h).1

theorem keysOk_all {fs : List (String × JValue)} {declared : List String}
    (h : keysOk fs declared = true) : (fs.all fun kv => declared.contains kv.1) = true :=
  (Bool.and_eq_true .. ▸ h).2

theorem jLit_sound {allowed : List String} {j : JValue} {x : Option String}
    (h : jLit allowed j = some x) : litOk x allowed = true := by
  cases j with
  | null => cases h; rfl
  | str s =>
    simp only [jLit] at h
    by_cases hc : allowed.contains s = true
    · rw [if_pos hc] at h; cases h; exact hc
    · rw [if_neg hc] at h; cases h
  | _ => cases h

theorem jLitR_sound {allowed : List String} {j : JValue} {x : String}
    (h : jLitR allowed j = some x) : allowed.contains x = true := by
  cases j with
  | str s =>
    simp only [jLitR] at h
    by_cases hc : allowed.contains s = true
    · rw [if_pos hc] at h; cases h; exact hc
    · rw [if_neg hc] at h; cases h
  | _ => cases h

theorem jEcog_sound {j : JValue} {x : Option Int} (h : jEcog j = some x) :
    ecogOk x = true := by
  cases j with
  | null => cases h; rfl
  | int n =>
    simp only [jEcog] at h
    by_cases hc : 0 ≤ n ∧ n ≤ 4
    · rw [if_pos hc] at h; cases h; simp [ecogOk, hc.1, hc.2]
    · rw [if_neg hc] at h; cases h
  | float q =>
    simp only [jEcog] at h
    by_cases hd : (q.den == 1) = true
    · rw [if_pos hd] at h
      by_cases hc : 0 ≤ q.num ∧ q.num ≤ 4
      · rw [if_pos hc] at h; cases h; simp [ecogOk, hc.1, hc.2]
      · rw [if_neg hc] at h; cases h
    · rw [if_neg hd] at h; cases h
  | _ => cases h

theorem fieldD_lit_ok (fs : List (String × JValue)) (k : String) (allowed : List String)
    (x : Option String) (h : fieldD fs k (jLit allowed) none = some x) :
    litOk x allowed = true := by
  unfold fieldD at h
  cases hl : lookupField fs k <;> rw [hl] at h
  · cases h; rfl
  · exact jLit_sound h

theorem fieldD_ecog_ok (fs : List (String × JValue)) (k : String) (x : Option Int)
    (h : fieldD fs k jEcog none = some x) : ecogOk x = true := by
  unfold fieldD at h
  cases hl : lookupField fs k <;> rw [hl] at h
  · cases h; rfl
  · exact jEcog_sound h

theorem fieldD_cases {α : Type} (fs : List (String × JValue)) (k : String)
    (dec : JValue → Option α) (dflt : α) (x : α) (h : fieldD fs k dec dflt = some x) :
    x = dflt ∨ ∃ j, lookupField fs k = some j ∧ dec j = some x := by
  unfold fieldD at h
  cases hl : lookupField fs k <;> rw [hl] at h
  · cases h; exact Or.inl rfl
  · exact Or.inr ⟨_, rfl, h⟩

theorem lookupField_of_mem_nodup (fs : List (String × JValue)) (k : String) (v : JValue)
    (hnd : nodupStr (keysOf fs) = true) (hm : (k, v) ∈ fs) : lookupField fs k = some v := by
  induction fs with
  | nil => cases hm
  | cons kv rest ih =>
    have hnd2 : (!(keysOf rest).contains kv.1 && nodupStr (keysOf rest)) = true := hnd
    rw [Bool.and_eq_true] at hnd2
    rcases List.mem_cons.mp hm with heq | hmem
    · rw [← heq]
      simp [lookupField, List.find?]
    · have hk : k ∈ keysOf rest := List.mem_map.mpr ⟨(k, v), hmem, rfl⟩
      have hne : (kv.1 == k) = false := by
        by_cases he : kv.1 = k
        · subst he
          have hc : (keysOf rest).contains kv.1 = true := List.elem_eq_true_of_mem hk
          have h2 := hnd2.1
          rw [hc] at h2
          cases h2
        · simpa using he
      show lookupField (kv :: rest) k = some v
      simp only [lookupField, List.find?, hne]
      exact ih hnd2.2 hmem

theorem fieldD_mem_dec {α : Type} (fs : List (String × JValue)) (k : String)
    (dec : JValue → Option α) (dflt : α) (x : α) (v : JValue)
    (hnd : nodupStr (keysOf fs) = true) (hf : fieldD fs k dec dflt = some x)
    (hm : (k, v) ∈ fs) : dec v = some x := by
  have hl := lookupField_of_mem_nodup fs k v hnd hm
  unfold fieldD at hf
  rw [hl] at hf
  exact hf

theorem fieldR_mem_dec {α : Type} (fs : List (String × JValue)) (k : String)
    (dec : JValue → Option α) (x : α) (v : JValue)
    (hnd : nodupStr (keysOf fs) = true) (hf : fieldR fs k dec = some x)
    (hm : (k, v) ∈ fs) : dec v = some x := by
  have hl := lookupField_of_mem_nodup fs k v hnd hm
  unfold fieldR at hf
  rw [hl] at hf
  exact hf

theorem allDeclaredFields_of_forall (fl : List (String × SNode))
    (fs : List (String × JValue))
    (h : ∀ kv ∈ fs, ∃ n, lookupS fl kv.1 = some n ∧ allDeclared n kv.2 = true) :
    allDeclaredFields fl fs = true := by
  induction fs with
  | nil => rfl
  | cons kv rest ih =>
    obtain ⟨n, hls, hd⟩ := h kv (by simp)
    simp [allDeclaredFields, hls, hd, ih (fun kv2 hkv2 => h kv2 (by simp [hkv2]))]

theorem flat_allDeclared : ∀ n : SNode, flatNodeB n = true → ∀ v, allDeclared n v = true
  | .scalarN, _, v => by cases v <;> rfl
  | .anyN, _, v => by cases v <;> rfl
  | .listN m, h, v => by
    have hm : flatNodeB m = true := h
    cases v with
    | arr xs =>
      show allDeclaredList m xs = true
      induction xs with
      | nil => rfl
      | cons y ys ihy => simp [allDeclaredList, flat_allDeclared m hm y, ihy]
    | null => rfl
    | bool b => rfl
    | int n => rfl
    | float q => rfl
    | str s => rfl
    | obj fs => rfl
  | .objN fl, h, v => by exact absurd h (by simp [flatNodeB])

theorem allDeclaredFields_of_check (fl : List (String × SNode)) (declared : List String)
    (fs : List (String × JValue))
    (hcheck : (declared.all fun k =>
      match lookupS fl k with
      | some n => flatNodeB n
      | none => false) = true)
    (hkeys : (fs.all fun kv => declared.contains kv.1) = true) :
    allDeclaredFields fl fs = true := by
  induction fs with
  | nil => rfl
  | cons kv rest ih =>
    rw [List.all_cons, Bool.and_eq_true] at hkeys
    have hm : kv.1 ∈ declared := List.mem_of_elem_eq_true hkeys.1
    have hc := List.all_eq_true.mp hcheck kv.1 hm
    cases hls : lookupS fl kv.1 with
    | none => rw [hls] at hc; cases hc
    | some n =>
      rw [hls] at hc
      simp [allDeclaredFields, hls, flat_allDeclared n hc kv.2, ih hkeys.2]

theorem allDeclaredList_of_forall (n : SNode) (xs : List JValue)
    (h : ∀ x ∈ xs, allDeclared n x = true) : allDeclaredList n xs = true := by
  induction xs with
  | nil => rfl
  | cons y ys ih =>
    simp [allDeclaredList, h y (by simp), ih (fun x hx => h x (by simp [hx]))]

theorem jListOf_forall {α : Type} (dec : JValue → Option α) (P : JValue → Prop)
    (hdec : ∀ j x, dec j = some x → P j) :
    ∀ (xs : List JValue) (l : List α), jListOf dec xs = some l → ∀ j ∈ xs, P j := by
  intro xs
  induction xs with
  | nil => intro l _ j hj; cases hj
  | cons y ys ih =>
    intro l h j hj
    simp only [jListOf] at h
    cases hy : dec y with
    | none => rw [hy] at h; cases h
    | some x =>
      rw [hy] at h
      cases hrest : jListOf dec ys with
      | none => rw [hrest] at h; cases h
      | some l2 =>
        rcases List.mem_cons.mp hj with rfl | hmem
        · exact hdec j x hy
        · exact ih l2 hrest j hmem

theorem jListOf_all {α : Type} (dec : JValue → Option α) (Q : α → Prop)
    (hdec : ∀ j x, dec j = some x → Q x) :
    ∀ (xs : List JValue) (l : List α), jListOf dec xs = some l → ∀ x ∈ l, Q x := by
  intro xs
  induction xs with
  | nil => intro l h x hx; cases h; cases hx
  | cons y ys ih =>
    intro l h x hx
    simp only [jListOf] at h
    cases hy : dec y with
    | none => rw [hy] at h; cases h
    | some a =>
      rw [hy] at h
      cases hrest : jListOf dec ys with
      | none => rw [hrest] at h; cases h
      | some l2 =>
        rw [hrest] at h
        cases h
        rcases List.mem_cons.mp hx with rfl | hmem
        · exact hdec y x hy
        · exact ih l2 hrest x hmem

/-! ## Decoder round-trip lemmas -/

theorem jOptStr_round (x : Option String) : jOptStr (jOfOptStr x) = some x := by
  cases x <;> rfl

theorem jOptInt_round (x : Option Int) : jOptInt (jOfOptInt x) = some x := by
  cases x <;> rfl

theorem jOptNum_round (x : Option ℚ) : jOptNum (jOfOptNum x) = some x := by
  cases x <;> rfl

theorem jOptBool_round (x : Option Bool) : jOptBool (jOfOptBool x) = some x := by
  cases x <;> rfl

theorem jOptDict_round (x : Option (List (String × JValue))) :
    jOptDict (jOfOptDict x) = some x := by
  cases x <;> rfl

theorem jStrList_round (l : List String) : jStrList (l.map .str) = some l := by
  induction l with
  | nil => rfl
  | cons s rest ih => simp [jStrList, ih]

theorem jOptStrList_round (x : Option (List String)) :
    jOptStrList (jOfOptStrList x) = some x := by
  cases x with
  | none => rfl
  | some l => simp [jOfOptStrList, jOptStrList, jStrList_round]

theorem jLit_round {x : Option String} {allowed : List String} (h : litOk x allowed = true) :
    jLit allowed (jOfOptStr x) = some x := by
  cases x with
  | none => rfl
  | some s =>
    simp [jOfOptStr, jLit, litOk] at h ⊢
    simp [h]

theorem jLitR_round {x : String} {allowed : List String} (h : allowed.contains x = true) :
    jLitR allowed (.str x) = some x := by
  simp [jLitR] at h ⊢
  simp [h]

theorem jEcog_round {x : Option Int} (h : ecogOk x = true) :
    jEcog (jOfOptInt x) = some x := by
  cases x with
  | none => rfl
  | some n =>
    simp [ecogOk] at h
    simp [jOfOptInt, jEcog, h.1, h.2]

theorem jListOf_round {α : Type} (dec : JValue → Option α) (toJ : α → JValue) (l : List α)
    (h : ∀ x ∈ l, dec (toJ x) = some x) : jListOf dec (l.map toJ) = some l := by
  induction l with
  | nil => rfl
  | cons y ys ih =>
    simp only [List.map_cons, jListOf, h y (by simp)]
    simp [ih (fun x hx => h x (by simp [hx]))]

/-! ## Per-model serialization round trips -/

theorem studyMetadataJ_round (m : StudyMetadata) :
    validateStudyMetadata (studyMetadataJ m) = some m := by
  simp [validateStudyMetadata, studyMetadataJ, fieldD, lookupField, keysOk, nodupStr, keysOf,
    smKeys, List.find?, jOptStr_round, jOptInt_round, jOptStrList_round]

theorem treatmentJ_round (t : Treatment) (h : treatmentOk t = true) :
    validateTreatment (treatmentJ t) = some t := by
  simp [validateTreatment, treatmentJ, fieldD, lookupField, keysOk, nodupStr, keysOf,
    treatmentKeys, List.find?, jOptStr_round, jOptBool_round, jOptStrList_round, jLit_round h]

theorem tumorBurdenJ_round (t : TumorBurden) (h : tumorOk t = true) :
    validateTumorBurden (tumorBurdenJ t) = some t := by
  simp [validateTumorBurden, tumorBurdenJ, fieldD, lookupField, keysOk, nodupStr, keysOf,
    tumorKeys, List.find?, jOptStr_round, jOptNum_round, jOptBool_round, jLit_round h]

theorem childPughJ_round (c : ChildPugh) (h : childPughOk c = true) :
    validateChildPugh (childPughJ c) = some c := by
  have h3 : litOk c.class_letter classLetterLits = true := (Bool.and_eq_true .. ▸ h).2
  have h12 := (Bool.and_eq_true .. ▸ h).1
  have h1 : litOk c.ascites ascitesLits = true := (Bool.and_eq_true .. ▸ h12).1
  have h2 : litOk c.encephalopathy encephLits = true := (Bool.and_eq_true .. ▸ h12).2
  simp [validateChildPugh, childPughJ, fieldD, lookupField, keysOk, nodupStr, keysOf,
    childPughKeys, List.find?, jOptStr_round, jOptNum_round, jOptInt_round,
    jLit_round h1, jLit_round h2, jLit_round h3]

theorem performanceStatusJ_round (p : PerformanceStatus) (h : psOk p = true) :
    validatePerformanceStatus (performanceStatusJ p) = some p := by
  simp [validatePerformanceStatus, performanceStatusJ, fieldD, lookupField, keysOk,
    nodupStr, keysOf, List.find?, jEcog_round h]

theorem baselineJ_round (b : BCLCBaseline) (h : baselineOk b = true) :
    validateBCLCBaseline (baselineJ b) = some b := by
  have h3 : psOk b.performance_status = true := (Bool.and_eq_true .. ▸ h).2
  have h12 := (Bool.and_eq_true .. ▸ h).1
  have h1 : tumorOk b.tumor_burden = true := (Bool.and_eq_true .. ▸ h12).1
  have h2 : childPughOk b.child_pugh = true := (Bool.and_eq_true .. ▸ h12).2
  simp [validateBCLCBaseline, baselineJ, fieldD, lookupField, keysOk, nodupStr, keysOf,
    baselineKeys, List.find?, tumorBurdenJ_round _ h1, childPughJ_round _ h2,
    performanceStatusJ_round _ h3]

theorem cuseJ_round (c : BCLC2025CUSE) : validateBCLC2025CUSE (cuseJ c) = some c := by
  simp [validateBCLC2025CUSE, cuseJ, fieldD, lookupField, keysOk, nodupStr, keysOf,
    cuseKeys, List.find?, jBool, jOptStr_round, jOptStrList_round]

theorem metricJ_round (m : OutcomeMetric) : validateOutcomeMetric (metricJ m) = some m := by
  simp [validateOutcomeMetric, metricJ, fieldD, lookupField, keysOk, nodupStr, keysOf,
    metricKeys, List.find?, jOptStr_round, jOptNum_round, jOptInt_round]

theorem spanJ_round (s : EvidenceSpan) : validateEvidenceSpan (spanJ s) = some s := by
  simp [validateEvidenceSpan, spanJ, fieldD, fieldR, lookupField, keysOk, nodupStr, keysOf,
    spanKeys, List.find?, jStr, jOptStr_round, jOptInt_round]

theorem resultsJ_round (r : Results) : validateResults (resultsJ r) = some r := by
  simp [validateResults, resultsJ, fieldD, lookupField, keysOk, nodupStr, keysOf,
    resultsKeys, List.find?, jOptStr_round, jOptDict_round, metricJ_round]

theorem adverseEventJ_round (a : AdverseEvent) :
    validateAdverseEvent (adverseEventJ a) = some a := by
  simp [validateAdverseEvent, adverseEventJ, fieldD, lookupField, keysOk, nodupStr, keysOf,
    aeKeys, List.find?, jOptStr_round]

theorem jOfOptAeList_round (xs : Option (List AdverseEvent)) :
    jOptListOf validateAdverseEvent (jOfOptAeList xs) = some xs := by
  cases xs with
  | none => rfl
  | some l =>
    simp [jOfOptAeList, jOptListOf,
      jListOf_round validateAdverseEvent adverseEventJ l (fun x _ => adverseEventJ_round x)]

theorem safetyJ_round (s : Safety) : validateSafety (safetyJ s) = some s := by
  simp [validateSafety, safetyJ, fieldD, lookupField, keysOk, nodupStr, keysOf,
    safetyKeys, List.find?, jOptStr_round, jOptBool_round, jOfOptAeList_round]

theorem armJ_round (a : ExperimentArm) (h : armOk a = true) :
    validateExperimentArm (armJ a) = some a := by
  have h3 : litOk a.bclc_stage_reported stageLits = true := (Bool.and_eq_true .. ▸ h).2
  have h12 := (Bool.and_eq_true .. ▸ h).1
  have h1 : treatmentOk a.treatment = true := (Bool.and_eq_true .. ▸ h12).1
  have h2 : baselineOk a.bclc_baseline = true := (Bool.and_eq_true .. ▸ h12).2
  simp [validateExperimentArm, armJ, fieldD, lookupField, keysOk, nodupStr, keysOf,
    armKeys, List.find?, jOptStr_round, treatmentJ_round _ h1, baselineJ_round _ h2,
    jLit_round h3, cuseJ_round, resultsJ_round, safetyJ_round]

theorem extractionOutputJ_round (o : ExtractionOutput) (h : outOk o = true) :
    validateExtractionOutput (extractionOutputJ o) = some o := by
  have h1 : evidenceLevelLits.contains o.evidence_level = true := (Bool.and_eq_true .. ▸ h).1
  have h2 : o.experiments.all armOk = true := (Bool.and_eq_true .. ▸ h).2
  have harms : jListOf validateExperimentArm (o.experiments.map armJ) = some o.experiments :=
    jListOf_round validateExperimentArm armJ o.experiments
      (fun a ha => armJ_round a (List.all_eq_true.mp h2 a ha))
  have hspans : jListOf validateEvidenceSpan (o.evidence_spans.map spanJ) =
      some o.evidence_spans :=
    jListOf_round validateEvidenceSpan spanJ o.evidence_spans (fun s _ => spanJ_round s)
  simp [validateExtractionOutput, extractionOutputJ, fieldR, lookupField, keysOk, nodupStr,
    keysOf, rootKeys, List.find?, studyMetadataJ_round, jListR, harms, hspans, jLitR_round h1]

/-! ## Per-model soundness: a validated document has only declared keys, and
the resulting model satisfies the validity predicate. -/

theorem fieldR_extract {α : Type} (fs : List (String × JValue)) (k : String)
    (dec : JValue → Option α) (x : α) (h : fieldR fs k dec = some x) :
    ∃ j, lookupField fs k = some j ∧ dec j = some x := by
  unfold fieldR at h
  cases hl : lookupField fs k <;> rw [hl] at h
  · cases h
  · exact ⟨_, rfl, h⟩

theorem sm_sound (j : JValue) (x : StudyMetadata) (h : validateStudyMetadata j = some x) :
    allDeclared smNode j = true := by
  obtain ⟨fs, rfl⟩ : ∃ fs, j = .obj fs := by
    cases j <;> first | exact ⟨_, rfl⟩ | simp [validateStudyMetadata] at h
  simp only [validateStudyMetadata] at h
  by_cases hk : keysOk fs smKeys = true
  · show allDeclaredFields _ fs = true
    exact allDeclaredFields_of_check _ smKeys fs (by decide) (keysOk_all hk)
  · rw [if_neg hk] at h; cases h

theorem cuse_sound (j : JValue) (x : BCLC2025CUSE) (h : validateBCLC2025CUSE j = some x) :
    allDeclared cuseNode j = true := by
  obtain ⟨fs, rfl⟩ : ∃ fs, j = .obj fs := by
    cases j <;> first | exact ⟨_, rfl⟩ | simp [validateBCLC2025CUSE] at h
  simp only [validateBCLC2025CUSE] at h
  by_cases hk : keysOk fs cuseKeys = true
  · show allDeclaredFields _ fs = true
    exact allDeclaredFields_of_check _ cuseKeys fs (by decide) (keysOk_all hk)
  · rw [if_neg hk] at h; cases h

theorem metric_sound (j : JValue) (x : OutcomeMetric) (h : validateOutcomeMetric j = some x) :
    allDeclared metricNode j = true := by
  obtain ⟨fs, rfl⟩ : ∃ fs, j = .obj fs := by
    cases j <;> first | exact ⟨_, rfl⟩ | simp [validateOutcomeMetric] at h
  simp only [validateOutcomeMetric] at h
  by_cases hk : keysOk fs metricKeys = true
  · show allDeclaredFields _ fs = true
    exact allDeclaredFields_of_check _ metricKeys fs (by decide) (keysOk_all hk)
  · rw [if_neg hk] at h; cases h

theorem span_sound (j : JValue) (x : EvidenceSpan) (h : validateEvidenceSpan j = some x) :
    allDeclared spanNode j = true := by
  obtain ⟨fs, rfl⟩ : ∃ fs, j = .obj fs := by
    cases j <;> first | exact ⟨_, rfl⟩ | simp [validateEvidenceSpan] at h
  simp only [validateEvidenceSpan] at h
  by_cases hk : keysOk fs spanKeys = true
  · show allDeclaredFields _ fs = true
    exact allDeclaredFields_of_check _ spanKeys fs (by decide) (keysOk_all hk)
  · rw [if_neg hk] at h; cases h

theorem ae_sound (j : JValue) (x : AdverseEvent) (h : validateAdverseEvent j = some x) :
    allDeclared aeNode j = true := by
  obtain ⟨fs, rfl⟩ : ∃ fs, j = .obj fs := by
    cases j <;> first | exact ⟨_, rfl⟩ | simp [validateAdverseEvent] at h
  simp only [validateAdverseEvent] at h
  by_cases hk : keysOk fs aeKeys = true
  · show allDeclaredFields _ fs = true
    exact allDeclaredFields_of_check _ aeKeys fs (by decide) (keysOk_all hk)
  · rw [if_neg hk] at h; cases h

theorem treatment_sound (j : JValue) (x : Treatment) (h : validateTreatment j = some x) :
    allDeclared treatmentNode j = true ∧ treatmentOk x = true := by
  obtain ⟨fs, rfl⟩ : ∃ fs, j = .obj fs := by
    cases j <;> first | exact ⟨_, rfl⟩ | simp [validateTreatment] at h
  simp only [validateTreatment] at h
  by_cases hk : keysOk fs treatmentKeys = true
  case neg => rw [if_neg hk] at h; cases h
  case pos =>
    rw [if_pos hk] at h
    simp only [Option.bind_eq_some, Option.some.injEq, bind] at h
    obtain ⟨name, hname, cat, hcat, lot, hlot, dur, hdur, comb, hcomb, comps, hcomps, hfin⟩ := h
    subst hfin
    refine ⟨?_, fieldD_lit_ok _ _ _ _ hcat⟩
    show allDeclaredFields _ fs = true
    exact allDeclaredFields_of_check _ treatmentKeys fs (by decide) (keysOk_all hk)

theorem tumor_sound (j : JValue) (x : TumorBurden) (h : validateTumorBurden j = some x) :
    allDeclared tumorNode j = true ∧ tumorOk x = true := by
  obtain ⟨fs, rfl⟩ : ∃ fs, j = .obj fs := by
    cases j <;> first | exact ⟨_, rfl⟩ | simp [validateTumorBurden] at h
  simp only [validateTumorBurden] at h
  by_cases hk : keysOk fs tumorKeys = true
  case neg => rw [if_neg hk] at h; cases h
  case pos =>
    rw [if_pos hk] at h
    simp only [Option.bind_eq_some, Option.some.injEq, bind] at h
    obtain ⟨nod, hnod, lnc, hlnc, vi, hvi, ehs, hehs, afp, hafp, afp4, hafp4, hfin⟩ := h
    subst hfin
    refine ⟨?_, fieldD_lit_ok _ _ _ _ hnod⟩
    show allDeclaredFields _ fs = true
    exact allDeclaredFields_of_check _ tumorKeys fs (by decide) (keysOk_all hk)

theorem childPugh_sound (j : JValue) (x : ChildPugh) (h : validateChildPugh j = some x) :
    allDeclared childPughNode j = true ∧ childPughOk x = true := by
  obtain ⟨fs, rfl⟩ : ∃ fs, j = .obj fs := by
    cases j <;> first | exact ⟨_, rfl⟩ | simp [validateChildPugh] at h
  simp only [validateChildPugh] at h
  by_cases hk : keysOk fs childPughKeys = true
  case neg => rw [if_neg hk] at h; cases h
  case pos =>
    rw [if_pos hk] at h
    simp only [Option.bind_eq_some, Option.some.injEq, bind] at h
    obtain ⟨bili, hbili, alb, halb, inr, hinr, asc, hasc, enc, henc, cl, hcl, sc, hsc, hfin⟩ := h
    subst hfin
    constructor
    · show allDeclaredFields _ fs = true
      exact allDeclaredFields_of_check _ childPughKeys fs (by decide) (keysOk_all hk)
    · show (litOk asc ascitesLits && litOk enc encephLits && litOk cl classLetterLits) = true
      rw [fieldD_lit_ok _ _ _ _ hasc, fieldD_lit_ok _ _ _ _ henc, fieldD_lit_ok _ _ _ _ hcl]
      rfl

theorem ps_sound (j : JValue) (x : PerformanceStatus)
    (h : validatePerformanceStatus j = some x) :
    allDeclared psNode j = true ∧ psOk x = true := by
  obtain ⟨fs, rfl⟩ : ∃ fs, j = .obj fs := by
    cases j <;> first | exact ⟨_, rfl⟩ | simp [validatePerformanceStatus] at h
  simp only [validatePerformanceStatus] at h
  by_cases hk : keysOk fs ["ecog"] = true
  case neg => rw [if_neg hk] at h; cases h
  case pos =>
    rw [if_pos hk] at h
    simp only [Option.bind_eq_some, Option.some.injEq, bind] at h
    obtain ⟨e, he, hfin⟩ := h
    subst hfin
    refine ⟨?_, fieldD_ecog_ok _ _ _ he⟩
    show allDeclaredFields _ fs = true
    exact allDeclaredFields_of_check _ ["ecog"] fs (by decide) (keysOk_all hk)

theorem baseline_sound (j : JValue) (x : BCLCBaseline) (h : validateBCLCBaseline j = some x) :
    allDeclared baselineNode j = true ∧ baselineOk x = true := by
  obtain ⟨fs, rfl⟩ : ∃ fs, j = .obj fs := by
    cases j <;> first | exact ⟨_, rfl⟩ | simp [validateBCLCBaseline] at h
  simp only [validateBCLCBaseline] at h
  by_cases hk : keysOk fs baselineKeys = true
  case neg => rw [if_neg hk] at h; cases h
  case pos =>
    rw [if_pos hk] at h
    simp only [Option.bind_eq_some, Option.some.injEq, bind] at h
    obtain ⟨tb, htb, cp, hcp, ps, hps, hfin⟩ := h
    subst hfin
    constructor
    · apply allDeclaredFields_of_forall
      intro kv hkv
      obtain ⟨k0, v0⟩ := kv
      have hc := List.all_eq_true.mp (keysOk_all hk) _ hkv
      have hmem : k0 ∈ baselineKeys := List.mem_of_elem_eq_true hc
      have hnd := keysOk_nodup hk
      simp only [baselineKeys, List.mem_cons, List.mem_singleton, List.not_mem_nil,
        or_false] at hmem
      rcases hmem with rfl | rfl | rfl
      · exact ⟨tumorNode, rfl,
          (tumor_sound v0 tb (fieldD_mem_dec _ _ _ _ _ _ hnd htb hkv)).1⟩
      · exact ⟨childPughNode, rfl,
          (childPugh_sound v0 cp (fieldD_mem_dec _ _ _ _ _ _ hnd hcp hkv)).1⟩
      · exact ⟨psNode, rfl,
          (ps_sound v0 ps (fieldD_mem_dec _ _ _ _ _ _ hnd hps hkv)).1⟩
    · show (tumorOk tb && childPughOk cp && psOk ps) = true
      have h1 : tumorOk tb = true := by
        rcases fieldD_cases _ _ _ _ _ htb with rfl | ⟨j2, _, hdec⟩
        · rfl
        · exact (tumor_sound j2 tb hdec).2
      have h2 : childPughOk cp = true := by
        rcases fieldD_cases _ _ _ _ _ hcp with rfl | ⟨j2, _, hdec⟩
        · rfl
        · exact (childPugh_sound j2 cp hdec).2
      have h3 : psOk ps = true := by
        rcases fieldD_cases _ _ _ _ _ hps with rfl | ⟨j2, _, hdec⟩
        · rfl
        · exact (ps_sound j2 ps hdec).2
      rw [h1, h2, h3]
      rfl

theorem results_sound (j : JValue) (x : Results) (h : validateResults j = some x) :
    allDeclared resultsNode j = true := by
  obtain ⟨fs, rfl⟩ : ∃ fs, j = .obj fs := by
    cases j <;> first | exact ⟨_, rfl⟩ | simp [validateResults] at h
  simp only [validateResults] at h
  by_cases hk : keysOk fs resultsKeys = true
  case neg => rw [if_neg hk] at h; cases h
  case pos =>
    rw [if_pos hk] at h
    simp only [Option.bind_eq_some, Option.some.injEq, bind] at h
    obtain ⟨rc, hrc, os, hos, pfs, hpfs, orr, horr, dcr, hdcr, ttp, httyp, other, hother,
      hfin⟩ := h
    apply allDeclaredFields_of_forall
    intro kv hkv
    obtain ⟨k0, v0⟩ := kv
    have hc := List.all_eq_true.mp (keysOk_all hk) _ hkv
    have hmem : k0 ∈ resultsKeys := List.mem_of_elem_eq_true hc
    have hnd := keysOk_nodup hk
    simp only [resultsKeys, List.mem_cons, List.mem_singleton, List.not_mem_nil,
      or_false] at hmem
    rcases hmem with rfl | rfl | rfl | rfl | rfl | rfl | rfl
    · exact ⟨.scalarN, rfl, flat_allDeclared .scalarN rfl v0⟩
    · exact ⟨metricNode, rfl,
        metric_sound v0 os (fieldD_mem_dec _ _ _ _ _ _ hnd hos hkv)⟩
    · exact ⟨metricNode, rfl,
        metric_sound v0 pfs (fieldD_mem_dec _ _ _ _ _ _ hnd hpfs hkv)⟩
    · exact ⟨metricNode, rfl,
        metric_sound v0 orr (fieldD_mem_dec _ _ _ _ _ _ hnd horr hkv)⟩
    · exact ⟨metricNode, rfl,
        metric_sound v0 dcr (fieldD_mem_dec _ _ _ _ _ _ hnd hdcr hkv)⟩
    · exact ⟨metricNode, rfl,
        metric_sound v0 ttp (fieldD_mem_dec _ _ _ _ _ _ hnd httyp hkv)⟩
    · exact ⟨.anyN, rfl, flat_allDeclared .anyN rfl v0⟩

theorem jOptListOf_allDeclared {α : Type} (dec : JValue → Option α) (node : SNode)
    (hdec : ∀ j x, dec j = some x → allDeclared node j = true) (v : JValue)
    (x : Option (List α)) (h : jOptListOf dec v = some x) :
    allDeclared (.listN node) v = true := by
  cases v with
  | arr xs =>
    simp only [jOptListOf] at h
    cases hL : jListOf dec xs with
    | none => rw [hL] at h; cases h
    | some l =>
      show allDeclaredList node xs = true
      exact allDeclaredList_of_forall _ _
        (jListOf_forall dec (fun j => allDeclared node j = true) hdec xs l hL)
  | null => rfl
  | bool b => cases h
  | int n => cases h
  | float q => cases h
  | str s => cases h
  | obj fs2 => cases h

theorem jListR_allDeclared {α : Type} (dec : JValue → Option α) (node : SNode)
    (hdec : ∀ j x, dec j = some x → allDeclared node j = true) (v : JValue)
    (x : List α) (h : jListR dec v = some x) : allDeclared (.listN node) v = true := by
  cases v with
  | arr xs =>
    show allDeclaredList node xs = true
    exact allDeclaredList_of_forall _ _
      (jListOf_forall dec (fun j => allDeclared node j = true) hdec xs x h)
  | null => cases h
  | bool b => cases h
  | int n => cases h
  | float q => cases h
  | str s => cases h
  | obj fs2 => cases h

theorem safety_sound (j : JValue) (x : Safety) (h : validateSafety j = some x) :
    allDeclared safetyNode j = true := by
  obtain ⟨fs, rfl⟩ : ∃ fs, j = .obj fs := by
    cases j <;> first | exact ⟨_, rfl⟩ | simp [validateSafety] at h
  simp only [validateSafety] at h
  by_cases hk : keysOk fs safetyKeys = true
  case neg => rw [if_neg hk] at h; cases h
  case pos =>
    rw [if_pos hk] at h
    simp only [Option.bind_eq_some, Option.some.injEq, bind] at h
    obtain ⟨aer, haer, g34, hg34, saes, hsaes, disc, hdisc, trd, htrd, narr, hnarr, hfin⟩ := h
    apply allDeclaredFields_of_forall
    intro kv hkv
    obtain ⟨k0, v0⟩ := kv
    have hc := List.all_eq_true.mp (keysOk_all hk) _ hkv
    have hmem : k0 ∈ safetyKeys := List.mem_of_elem_eq_true hc
    have hnd := keysOk_nodup hk
    simp only [safetyKeys, List.mem_cons, List.mem_singleton, List.not_mem_nil,
      or_false] at hmem
    rcases hmem with rfl | rfl | rfl | rfl | rfl | rfl
    · exact ⟨.scalarN, rfl, flat_allDeclared .scalarN rfl v0⟩
    · exact ⟨.listN aeNode, rfl,
        jOptListOf_allDeclared validateAdverseEvent aeNode ae_sound v0 g34
          (fieldD_mem_dec _ _ _ _ _ _ hnd hg34 hkv)⟩
    · exact ⟨.listN aeNode, rfl,
        jOptListOf_allDeclared validateAdverseEvent aeNode ae_sound v0 saes
          (fieldD_mem_dec _ _ _ _ _ _ hnd hsaes hkv)⟩
    · exact ⟨.scalarN, rfl, flat_allDeclared .scalarN rfl v0⟩
    · exact ⟨.scalarN, rfl, flat_allDeclared .scalarN rfl v0⟩
    · exact ⟨.scalarN, rfl, flat_allDeclared .scalarN rfl v0⟩

theorem arm_sound (j : JValue) (x : ExperimentArm) (h : validateExperimentArm j = some x) :
    allDeclared armNode j = true ∧ armOk x = true := by
  obtain ⟨fs, rfl⟩ : ∃ fs, j = .obj fs := by
    cases j <;> first | exact ⟨_, rfl⟩ | simp [validateExperimentArm] at h
  simp only [validateExperimentArm] at h
  by_cases hk : keysOk fs armKeys = true
  case neg => rw [if_neg hk] at h; cases h
  case pos =>
    rw [if_pos hk] at h
    simp only [Option.bind_eq_some, Option.some.injEq, bind] at h
    obtain ⟨an, han, tr, htr, bb, hbb, stage, hstage, cuse, hcuse, res, hres, saf, hsaf,
      hfin⟩ := h
    subst hfin
    constructor
    · apply allDeclaredFields_of_forall
      intro kv hkv
      obtain ⟨k0, v0⟩ := kv
      have hc := List.all_eq_true.mp (keysOk_all hk) _ hkv
      have hmem : k0 ∈ armKeys := List.mem_of_elem_eq_true hc
      have hnd := keysOk_nodup hk
      simp only [armKeys, List.mem_cons, List.mem_singleton, List.not_mem_nil,
        or_false] at hmem
      rcases hmem with rfl | rfl | rfl | rfl | rfl | rfl | rfl
      · exact ⟨.scalarN, rfl, flat_allDeclared .scalarN rfl v0⟩
      · exact ⟨treatmentNode, rfl,
          (treatment_sound v0 tr (fieldD_mem_dec _ _ _ _ _ _ hnd htr hkv)).1⟩
      · exact ⟨baselineNode, rfl,
          (baseline_sound v0 bb (fieldD_mem_dec _ _ _ _ _ _ hnd hbb hkv)).1⟩
      · exact ⟨.scalarN, rfl, flat_allDeclared .scalarN rfl v0⟩
      · exact ⟨cuseNode, rfl,
          cuse_sound v0 cuse (fieldD_mem_dec _ _ _ _ _ _ hnd hcuse hkv)⟩
      · exact ⟨resultsNode, rfl,
          results_sound v0 res (fieldD_mem_dec _ _ _ _ _ _ hnd hres hkv)⟩
      · exact ⟨safetyNode, rfl,
          safety_sound v0 saf (fieldD_mem_dec _ _ _ _ _ _ hnd hsaf hkv)⟩
    · show (treatmentOk tr && baselineOk bb && litOk stage stageLits) = true
      have h1 : treatmentOk tr = true := by
        rcases fieldD_cases _ _ _ _ _ htr with rfl | ⟨j2, _, hdec⟩
        · rfl
        · exact (treatment_sound j2 tr hdec).2
      have h2 : baselineOk bb = true := by
        rcases fieldD_cases _ _ _ _ _ hbb with rfl | ⟨j2, _, hdec⟩
        · rfl
        · exact (baseline_sound j2 bb hdec).2
      rw [h1, h2, fieldD_lit_ok _ _ _ _ hstage]
      rfl

theorem out_sound (j : JValue) (x : ExtractionOutput)
    (h : validateExtractionOutput j = some x) :
    allDeclared rootNode j = true ∧ outOk x = true := by
  obtain ⟨fs, rfl⟩ : ∃ fs, j = .obj fs := by
    cases j <;> first | exact ⟨_, rfl⟩ | simp [validateExtractionOutput] at h
  simp only [validateExtractionOutput] at h
  by_cases hk : keysOk fs rootKeys = true
  case neg => rw [if_neg hk] at h; cases h
  case pos =>
    rw [if_pos hk] at h
    simp only [Option.bind_eq_some, Option.some.injEq, bind] at h
    obtain ⟨sm, hsm, exps, hexps, el, hel, spans, hspans, hfin⟩ := h
    subst hfin
    constructor
    · apply allDeclaredFields_of_forall
      intro kv hkv
      obtain ⟨k0, v0⟩ := kv
      have hc := List.all_eq_true.mp (keysOk_all hk) _ hkv
      have hmem : k0 ∈ rootKeys := List.mem_of_elem_eq_true hc
      have hnd := keysOk_nodup hk
      simp only [rootKeys, List.mem_cons, List.mem_singleton, List.not_mem_nil,
        or_false] at hmem
      rcases hmem with rfl | rfl | rfl | rfl
      · exact ⟨smNode, rfl,
          sm_sound v0 sm (fieldR_mem_dec _ _ _ _ _ hnd hsm hkv)⟩
      · exact ⟨.listN armNode, rfl,
          jListR_allDeclared validateExperimentArm armNode
            (fun j2 a ha => (arm_sound j2 a ha).1) v0 exps
            (fieldR_mem_dec _ _ _ _ _ hnd hexps hkv)⟩
      · exact ⟨.scalarN, rfl, flat_allDeclared .scalarN rfl v0⟩
      · exact ⟨.listN spanNode, rfl,
          jListR_allDeclared validateEvidenceSpan spanNode span_sound v0 spans
            (fieldR_mem_dec _ _ _ _ _ hnd hspans hkv)⟩
    · show (evidenceLevelLits.contains el && exps.all armOk) = true
      obtain ⟨j2, _, hdec⟩ := fieldR_extract _ _ _ _ hel
      have h1 := jLitR_sound hdec
      obtain ⟨j3, _, hdec3⟩ := fieldR_extract _ _ _ _ hexps
      have h2 : exps.all armOk = true := by
        apply List.all_eq_true.mpr
        cases j3 with
        | arr xs =>
          exact jListOf_all validateExperimentArm (fun a => armOk a = true)
            (fun j4 a ha => (arm_sound j4 a ha).2) xs exps hdec3
        | null => cases hdec3
        | bool b => cases hdec3
        | int n => cases hdec3
        | float q => cases hdec3
        | str s => cases hdec3
        | obj fs2 => cases hdec3
      rw [h1, h2]
      rfl

/-! ## Round trip (C9) -/

/-- C9: validation is idempotent on already-valid data — serializing a
validated `ExtractionOutput` and re-validating the serialized form yields a
structure equal to the original. -/
theorem c9_round_trip (doc : JValue) (out : ExtractionOutput)
    (h : validateExtractionOutput doc = some out) :
    validateExtractionOutput (extractionOutputJ out) = some out :=
  extractionOutputJ_round out (out_sound doc out h).2

theorem c9_round_trip_witness :
    validateExtractionOutput rootDoc = some noArmsOut ∧
    validateExtractionOutput (extractionOutputJ noArmsOut) = some noArmsOut :=
  ⟨rfl, c9_round_trip rootDoc noArmsOut rfl⟩

/-! ## Closed-world rejection (C6) -/

theorem allDeclaredFields_lookup (fl0 : List (String × SNode))
    (fs : List (String × JValue)) (f : String) (sub : JValue)
    (hall : allDeclaredFields fl0 fs = true) (hlf : lookupField fs f = some sub) :
    ∃ n, lookupS fl0 f = some n ∧ allDeclared n sub = true := by
  induction fs with
  | nil => cases hlf
  | cons kv rest ih =>
    obtain ⟨k0, v0⟩ := kv
    have hall2 := hall
    simp only [allDeclaredFields, Bool.and_eq_true] at hall2
    by_cases he : (k0 == f) = true
    · have hf : k0 = f := by simpa using he
      subst hf
      have hlf2 : lookupField ((k0, v0) :: rest) k0 = some v0 := by
        simp [lookupField, List.find?]
      rw [hlf2] at hlf
      cases hlf
      cases hls : lookupS fl0 k0 with
      | none => rw [hls] at hall2; exact absurd hall2.1 (by simp)
      | some n =>
        refine ⟨n, rfl, ?_⟩
        have := hall2.1
        rw [hls] at this
        exact this
    · have hstep : lookupField ((k0, v0) :: rest) f = lookupField rest f := by
        simp [lookupField, List.find?, he]
      rw [hstep] at hlf
      exact ih hall2.2 hlf

theorem allDeclaredFields_setFirst_false (fl0 : List (String × SNode))
    (fs : List (String × JValue)) (f : String) (w : JValue) (n : SNode)
    (hn : lookupS fl0 f = some n) (hw : allDeclared n w = false) :
    (lookupField fs f).isSome = true →
    allDeclaredFields fl0 (setFirstField fs f w) = false := by
  induction fs with
  | nil => intro hlf; cases hlf
  | cons kv rest ih =>
    intro hlf
    obtain ⟨k0, v0⟩ := kv
    by_cases he : (k0 == f) = true
    · have hf : k0 = f := by simpa using he
      subst hf
      have hset : setFirstField ((k0, v0) :: rest) k0 w = (k0, w) :: rest := by
        simp [setFirstField]
      rw [hset]
      simp [allDeclaredFields, hn, hw]
    · have hset : setFirstField ((k0, v0) :: rest) f w = (k0, v0) :: setFirstField rest f w := by
        simp [setFirstField, he]
      rw [hset]
      have hlf2 : (lookupField rest f).isSome = true := by
        have hstep : lookupField ((k0, v0) :: rest) f = lookupField rest f := by
          simp [lookupField, List.find?, he]
        rw [hstep] at hlf
        exact hlf
      simp [allDeclaredFields, ih hlf2]

theorem allDeclaredList_getElem (n : SNode) (xs : List JValue) :
    ∀ (i : Nat) (sub : JValue), allDeclaredList n xs = true → xs[i]? = some sub →
      allDeclared n sub = true := by
  induction xs with
  | nil => intro i sub _ hget; cases hget
  | cons y ys ih =>
    intro i sub hall hget
    have hall2 := hall
    simp only [allDeclaredList, Bool.and_eq_true] at hall2
    cases i with
    | zero =>
      have : y = sub := by simpa using hget
      subst this
      exact hall2.1
    | succ i => exact ih i sub hall2.2 (by simpa using hget)

theorem allDeclaredList_set_false (n : SNode) (xs : List JValue) :
    ∀ (i : Nat) (w : JValue), allDeclared n w = false → i < xs.length →
      allDeclaredList n (xs.set i w) = false := by
  induction xs with
  | nil => intro i w _ hi; cases hi
  | cons y ys ih =>
    intro i w hw hi
    cases i with
    | zero =>
      show allDeclaredList n (w :: ys) = false
      simp [allDeclaredList, hw]
    | succ i =>
      show allDeclaredList n (y :: ys.set i w) = false
      simp [allDeclaredList, ih i w hw (by simpa using hi)]

theorem insertKeyAt_field (f : String) (p : List PathElem) (k : String) (v : JValue)
    (fs : List (String × JValue)) :
    insertKeyAt (.field f :: p) k v (.obj fs) =
      (lookupField fs f).bind fun sub =>
        (insertKeyAt p k v sub).map fun sub2 => .obj (setFirstField fs f sub2) := by
  cases hlf : lookupField fs f with
  | none => simp [insertKeyAt, hlf]
  | some sub => cases hsub : insertKeyAt p k v sub <;> simp [insertKeyAt, hlf, hsub]

theorem insertKeyAt_idx (i : Nat) (p : List PathElem) (k : String) (v : JValue)
    (xs : List JValue) :
    insertKeyAt (.idx i :: p) k v (.arr xs) =
      xs[i]?.bind fun sub =>
        (insertKeyAt p k v sub).map fun sub2 => .arr (xs.set i sub2) := by
  cases hget : xs[i]? with
  | none => simp [insertKeyAt, hget]
  | some sub => cases hsub : insertKeyAt p k v sub <;> simp [insertKeyAt, hget, hsub]

theorem removeKeyAt_field (f : String) (p : List PathElem) (k : String)
    (fs : List (String × JValue)) :
    removeKeyAt (.field f :: p) k (.obj fs) =
      (lookupField fs f).bind fun sub =>
        (removeKeyAt p k sub).map fun sub2 => .obj (setFirstField fs f sub2) := by
  cases hlf : lookupField fs f with
  | none => simp [removeKeyAt, hlf]
  | some sub => cases hsub : removeKeyAt p k sub <;> simp [removeKeyAt, hlf, hsub]

theorem removeKeyAt_idx (i : Nat) (p : List PathElem) (k : String)
    (xs : List JValue) :
    removeKeyAt (.idx i :: p) k (.arr xs) =
      xs[i]?.bind fun sub =>
        (removeKeyAt p k sub).map fun sub2 => .arr (xs.set i sub2) := by
  cases hget : xs[i]? with
  | none => simp [removeKeyAt, hget]
  | some sub => cases hsub : removeKeyAt p k sub <;> simp [removeKeyAt, hget, hsub]

/-- Inserting a key that the schema does not declare at that position flips
`allDeclared` to false, whatever value the key carries. -/
theorem allDeclared_insert_flip (path : List PathElem) :
    ∀ (s : SNode) (doc : JValue) (k : String) (v : JValue) (fl : List (String × SNode))
      (doc2 : JValue),
      allDeclared s doc = true → schemaAt s path = some (.objN fl) → lookupS fl k = none →
      insertKeyAt path k v doc = some doc2 → allDeclared s doc2 = false := by
  induction path with
  | nil =>
    intro s doc k v fl doc2 had hsch hlk hins
    have hs : s = .objN fl := by cases s <;> simp_all [schemaAt]
    subst hs
    cases doc with
    | obj fs =>
      cases hins
      show allDeclaredFields fl ((k, v) :: fs) = false
      simp [allDeclaredFields, hlk]
    | null => cases hins
    | bool b => cases hins
    | int n => cases hins
    | float q => cases hins
    | str s2 => cases hins
    | arr xs => cases hins
  | cons pe rest ih =>
    intro s doc k v fl doc2 had hsch hlk hins
    cases pe with
    | field f =>
      cases s with
      | objN fl0 =>
        cases hn : lookupS fl0 f with
        | none => simp [schemaAt, hn] at hsch
        | some n =>
          have hsch2 : schemaAt n rest = some (.objN fl) := by
            simpa [schemaAt, hn] using hsch
          cases doc with
          | obj fs =>
            rw [insertKeyAt_field, Option.bind_eq_some] at hins
            obtain ⟨sub, hlf, hins⟩ := hins
            rw [Option.map_eq_some'] at hins
            obtain ⟨sub2, hsub, rfl⟩ := hins
            have had2 : allDeclaredFields fl0 fs = true := had
            obtain ⟨n2, hn2, hsubtrue⟩ := allDeclaredFields_lookup fl0 fs f sub had2 hlf
            rw [hn] at hn2
            injection hn2 with hn3
            subst hn3
            have hfalse := ih n sub k v fl sub2 hsubtrue hsch2 hlk hsub
            show allDeclaredFields fl0 (setFirstField fs f sub2) = false
            exact allDeclaredFields_setFirst_false fl0 fs f sub2 n hn hfalse
              (by rw [hlf]; rfl)
          | null => cases hins
          | bool b => cases hins
          | int n2 => cases hins
          | float q => cases hins
          | str s2 => cases hins
          | arr xs => cases hins
      | scalarN => cases hsch
      | anyN => cases hsch
      | listN m => cases hsch
    | idx i =>
      cases s with
      | listN n =>
        have hsch2 : schemaAt n rest = some (.objN fl) := by
          simpa [schemaAt] using hsch
        cases doc with
        | arr xs =>
          rw [insertKeyAt_idx, Option.bind_eq_some] at hins
          obtain ⟨sub, hget, hins⟩ := hins
          rw [Option.map_eq_some'] at hins
          obtain ⟨sub2, hsub, rfl⟩ := hins
          have hsubtrue := allDeclaredList_getElem n xs i sub had hget
          have hfalse := ih n sub k v fl sub2 hsubtrue hsch2 hlk hsub
          have hi : i < xs.length := (List.getElem?_eq_some_iff.mp hget).1
          show allDeclaredList n (xs.set i sub2) = false
          exact allDeclaredList_set_false n xs i sub2 hfalse hi
        | null => cases hins
        | bool b => cases hins
        | int n2 => cases hins
        | float q => cases hins
        | str s2 => cases hins
        | obj fs => cases hins
      | scalarN => cases hsch
      | anyN => cases hsch
      | objN fl0 => cases hsch

theorem lookupField_setFirstField (fs : List (String × JValue)) (f : String) (w : JValue)
    (h : (lookupField fs f).isSome = true) :
    lookupField (setFirstField fs f w) f = some w := by
  induction fs with
  | nil => cases h
  | cons kv rest ih =>
    obtain ⟨k0, v0⟩ := kv
    by_cases he : (k0 == f) = true
    · simp [setFirstField, he, lookupField, List.find?]
    · have hstep : lookupField ((k0, v0) :: rest) f = lookupField rest f := by
        simp [lookupField, List.find?, he]
      rw [hstep] at h
      simp only [setFirstField, he, Bool.false_eq_true, if_false]
      have : lookupField ((k0, v0) :: setFirstField rest f w) f =
          lookupField (setFirstField rest f w) f := by
        simp [lookupField, List.find?, he]
      rw [this]
      exact ih h

theorem setFirstField_setFirstField (fs : List (String × JValue)) (f : String)
    (w1 w2 : JValue) : setFirstField (setFirstField fs f w1) f w2 = setFirstField fs f w2 := by
  induction fs with
  | nil => rfl
  | cons kv rest ih =>
    obtain ⟨k0, v0⟩ := kv
    by_cases he : (k0 == f) = true
    · simp [setFirstField, he]
    · simp [setFirstField, he, ih]

theorem setFirstField_lookup_self (fs : List (String × JValue)) (f : String) (sub : JValue)
    (h : lookupField fs f = some sub) : setFirstField fs f sub = fs := by
  induction fs with
  | nil => rfl
  | cons kv rest ih =>
    obtain ⟨k0, v0⟩ := kv
    by_cases he : (k0 == f) = true
    · have hlf : lookupField ((k0, v0) :: rest) f = some v0 := by
        simp [lookupField, List.find?, he]
      rw [hlf] at h
      cases h
      simp [setFirstField, he]
    · have hstep : lookupField ((k0, v0) :: rest) f = lookupField rest f := by
        simp [lookupField, List.find?, he]
      rw [hstep] at h
      simp [setFirstField, he, ih h]

theorem set_getElem?_self {α : Type} (xs : List α) :
    ∀ (i : Nat) (sub : α), xs[i]? = some sub → xs.set i sub = xs := by
  induction xs with
  | nil => intro i sub h; cases h
  | cons y ys ih =>
    intro i sub h
    cases i with
    | zero =>
      have : y = sub := by simpa using h
      subst this
      rfl
    | succ i =>
      show y :: ys.set i sub = y :: ys
      rw [ih i sub (by simpa using h)]

/-- Removing the inserted key undoes the insertion. -/
theorem removeKeyAt_insertKeyAt (path : List PathElem) :
    ∀ (k : String) (v : JValue) (doc doc2 : JValue),
      insertKeyAt path k v doc = some doc2 → removeKeyAt path k doc2 = some doc := by
  induction path with
  | nil =>
    intro k v doc doc2 hins
    cases doc with
    | obj fs =>
      cases hins
      simp [removeKeyAt, eraseFirstKey]
    | null => cases hins
    | bool b => cases hins
    | int n => cases hins
    | float q => cases hins
    | str s => cases hins
    | arr xs => cases hins
  | cons pe rest ih =>
    intro k v doc doc2 hins
    cases pe with
    | field f =>
      cases doc with
      | obj fs =>
        rw [insertKeyAt_field, Option.bind_eq_some] at hins
        obtain ⟨sub, hlf, hins⟩ := hins
        rw [Option.map_eq_some'] at hins
        obtain ⟨sub2, hsub, rfl⟩ := hins
        have hsome : (lookupField fs f).isSome = true := by rw [hlf]; rfl
        have hlf2 := lookupField_setFirstField fs f sub2 hsome
        rw [removeKeyAt_field, hlf2, Option.some_bind, ih k v sub sub2 hsub,
          Option.map_some', setFirstField_setFirstField,
          setFirstField_lookup_self fs f sub hlf]
      | null => cases hins
      | bool b => cases hins
      | int n => cases hins
      | float q => cases hins
      | str s => cases hins
      | arr xs => cases hins
    | idx i =>
      cases doc with
      | arr xs =>
        rw [insertKeyAt_idx, Option.bind_eq_some] at hins
        obtain ⟨sub, hget, hins⟩ := hins
        rw [Option.map_eq_some'] at hins
        obtain ⟨sub2, hsub, rfl⟩ := hins
        have hi : i < xs.length := (List.getElem?_eq_some_iff.mp hget).1
        have hget2 : (xs.set i sub2)[i]? = some sub2 := List.getElem?_set_self hi
        rw [removeKeyAt_idx, hget2, Option.some_bind, ih k v sub sub2 hsub,
          Option.map_some', List.set_set, set_getElem?_self xs i sub hget]
      | null => cases hins
      | bool b => cases hins
      | int n => cases hins
      | float q => cases hins
      | str s => cases hins
      | obj fs => cases hins

/-- C6: closed-world validation — inserting one field name undeclared at its
schema position, at any nesting depth (any path of object fields and list
indices), makes validation of an otherwise-valid document fail, and removing
that single key restores the original document, which passes. -/
theorem c6_closed_world (doc : JValue) (out : ExtractionOutput) (path : List PathElem)
    (k : String) (v : JValue) (fl : List (String × SNode)) (doc2 : JValue)
    (hv : validateExtractionOutput doc = some out)
    (hsch : schemaAt rootNode path = some (.objN fl))
    (hk : lookupS fl k = none)
    (hins : insertKeyAt path k v doc = some doc2) :
    validateExtractionOutput doc2 = none ∧ removeKeyAt path k doc2 = some doc := by
  constructor
  · cases hv2 : validateExtractionOutput doc2 with
    | none => rfl
    | some out2 =>
      have htrue := (out_sound doc2 out2 hv2).1
      have hfalse := allDeclared_insert_flip path rootNode doc k v fl doc2
        (out_sound doc out hv).1 hsch hk hins
      rw [htrue] at hfalse
      cases hfalse
  · exact removeKeyAt_insertKeyAt path k v doc doc2 hins

theorem c6_closed_world_witness :
    validateExtractionOutput extraKeyDoc = none ∧
    removeKeyAt [.field "study_metadata"] "extra" extraKeyDoc = some rootDoc :=
  c6_closed_world rootDoc noArmsOut [.field "study_metadata"] "extra" (.bool true)
    [("pmid", .scalarN), ("title", .scalarN), ("year", .scalarN),
     ("journal", .scalarN), ("doi", .scalarN), ("study_design", .scalarN),
     ("phase", .scalarN), ("sample_size_total", .scalarN),
     ("arms", .listN .scalarN), ("comparator", .scalarN)]
    extraKeyDoc rfl rfl rfl rfl

end Hcc
